/-
Verification of the flicker-detection pipeline
(`python-mcp-servers/flicker_detection`) against its specification.

The development shallowly embeds the Python sources:

* machine floats are idealised as exact rationals (every runtime float value
  is a rational); the analysis-layer definitions are generic over a
  `LinearOrderedField` so that the orchestrator, which needs `Real.sqrt`
  for `numpy.std`, can instantiate them at `ℝ` while concrete evaluations
  run at `ℚ`;
* external effects (PIL image loading, PIL resize, the process pool's
  completion order, adb output, the vision endpoint) are explicit
  parameters of the embedded functions;
* fallible operations are modelled by `Option`/sum-shaped inputs, matching
  the `try/except` structure of the source.
-/
import Mathlib

set_option linter.unusedSectionVars false

namespace Flicker

/-! ## Python `round` (banker's rounding to `d` decimal digits)

`round(x, d)` in Python rounds `x·10^d` to the nearest integer, ties to
even, and divides back.  The sources use it in
`layer2_analysis.py` (scores to 6 digits, times to 3, durations to 1),
`layer0_surface.py` (jank percentage to 2, offsets to 3). -/

variable {K : Type} [LinearOrderedField K] [FloorRing K]

/-- Round to the nearest integer, ties to even (Python's `round`). -/
def roundHalfEven (x : K) : ℤ :=
  let n := ⌊x⌋
  if x - n < 1/2 then n
  else if (1:K)/2 < x - n then n + 1
  else if Even n then n else n + 1

/-- Python `round(x, d)`. -/
def pyRound (x : K) (d : ℕ) : K :=
  (roundHalfEven (x * 10 ^ d) : ℤ) / 10 ^ d

theorem roundHalfEven_intCast (m : ℤ) : roundHalfEven (m : K) = m := by
  unfold roundHalfEven
  rw [Int.floor_intCast]
  simp

/-- `round` is the identity on values that are exact at `d` digits. -/
theorem pyRound_eq_self {x : K} {d : ℕ} (m : ℤ) (hm : x * 10 ^ d = (m : K)) :
    pyRound x d = x := by
  unfold pyRound
  rw [hm, roundHalfEven_intCast, ← hm]
  have h10 : (10 : K) ^ d ≠ 0 := by positivity
  field_simp

/-! ## Layer 0 — `layer0_surface.py` -/

/-- Output of `SurfaceFlingerCapture.capture_surface_stats`: the dict
`{"raw": …, "total_frames": …, "janky_frames": …, "jank_pct": …}` with the
counters parsed from `dumpsys` output (unparseable fields stay `0`). -/
structure SurfaceStats where
  raw : String
  total_frames : ℤ
  janky_frames : ℤ
  jank_pct : ℚ
deriving Repr, DecidableEq

/-- `services/models.py` `SurfaceStatsDelta`. -/
structure SurfaceStatsDelta where
  frames_before : ℤ
  frames_after : ℤ
  frames_during_test : ℤ
  janky_before : ℤ
  janky_after : ℤ
  janky_during_test : ℤ
  jank_pct_during_test : ℚ
deriving Repr, DecidableEq

/-- `SurfaceFlingerCapture.compute_delta` (layer0_surface.py lines 68–86). -/
def compute_delta (before after : SurfaceStats) : SurfaceStatsDelta :=
  let frames_during := after.total_frames - before.total_frames
  let janky_during := after.janky_frames - before.janky_frames
  let jank_pct : ℚ :=
    if 0 < frames_during then (janky_during : ℚ) / (frames_during : ℚ) * 100 else 0
  { frames_before := before.total_frames
    frames_after := after.total_frames
    frames_during_test := frames_during
    janky_before := before.janky_frames
    janky_after := after.janky_frames
    janky_during_test := janky_during
    jank_pct_during_test := pyRound jank_pct 2 }

/-! ### Logcat capture

A raw logcat line either fails the timestamp regex (`LOGCAT_TS_RE`), or
yields a timestamp string together with level/tag/message.  The timestamp
string is abstracted by its `strptime` parse result: `some t` with `t` the
absolute time in milliseconds (the `MM-DD HH:MM:SS.mmm` format carries
exactly millisecond precision), or `none` when `strptime` raises
`ValueError` (a regex-matching but calendar-invalid stamp such as month
`13`). -/
inductive LogLine where
  | noMatch
  | matched (ts : Option ℤ) (level tag message : String)
deriving Repr, DecidableEq

/-- `services/models.py` `LogcatEntry`; the `timestamp` string is kept as
its parse result. -/
structure LogcatEntry where
  timestamp : Option ℤ
  seconds_since_start : ℚ
  tag : String
  level : String
  message : String
deriving Repr, DecidableEq

/-- Python's `t in tag` substring test. -/
def pyIn (needle hay : String) : Bool :=
  decide (needle.toList <:+: hay.toList)

/-- The fixed tag allow-list `LOGCAT_TAGS`. -/
def LOGCAT_TAGS : List String :=
  ["Choreographer", "SurfaceFlinger", "WindowManager", "ActivityManager",
   "InputDispatcher"]

/-- The parsing loop of `SurfaceFlingerCapture.capture_logcat`
(layer0_surface.py lines 111–138), carrying the `first_ts` state: lines
that miss the regex or the tag allow-list are dropped; the first kept line
with a parseable timestamp fixes `first_ts`; each kept entry records
`round((ts - first_ts).total_seconds(), 3)` (`0.0` on `ValueError`). -/
def logcatProcess (tags : List String) :
    List LogLine → Option ℤ → List LogcatEntry
  | [], _ => []
  | .noMatch :: rest, first => logcatProcess tags rest first
  | .matched ts lvl tag msg :: rest, first =>
    if tags.any (fun t => pyIn t tag) then
      match ts with
      | none =>
        { timestamp := none, seconds_since_start := 0,
          tag := tag, level := lvl, message := msg }
          :: logcatProcess tags rest first
      | some t =>
        match first with
        | none =>
          { timestamp := some t, seconds_since_start := 0,
            tag := tag, level := lvl, message := msg }
            :: logcatProcess tags rest (some t)
        | some f =>
          { timestamp := some t,
            seconds_since_start := pyRound (((t - f : ℤ) : ℚ) / 1000) 3,
            tag := tag, level := lvl, message := msg }
            :: logcatProcess tags rest (some f)
    else logcatProcess tags rest first

/-- `capture_logcat`'s kept-entry sequence: the loop starts with
`first_ts = None`. -/
def capture_logcat_entries (lines : List LogLine) : List LogcatEntry :=
  logcatProcess LOGCAT_TAGS lines none

/-! ## Claim C6 — `compute_delta` -/

/-- C6: `compute_delta` returns the componentwise after-minus-before frame
and jank counts, and when `frames_during_test = 0` the jank percentage is
`0.0` rather than a division by zero; the division is guarded (it happens
only when `0 < frames_during_test`). -/
theorem C6_compute_delta_guarded (before after : SurfaceStats) :
    (compute_delta before after).frames_before = before.total_frames ∧
    (compute_delta before after).frames_after = after.total_frames ∧
    (compute_delta before after).janky_before = before.janky_frames ∧
    (compute_delta before after).janky_after = after.janky_frames ∧
    (compute_delta before after).frames_during_test
      = after.total_frames - before.total_frames ∧
    (compute_delta before after).janky_during_test
      = after.janky_frames - before.janky_frames ∧
    (compute_delta before after).jank_pct_during_test
      = (if 0 < after.total_frames - before.total_frames then
          pyRound (((after.janky_frames - before.janky_frames : ℤ) : ℚ)
              / ((after.total_frames - before.total_frames : ℤ) : ℚ) * 100) 2
         else 0) ∧
    ((compute_delta before after).frames_during_test = 0 →
      (compute_delta before after).jank_pct_during_test = 0) := by
  unfold compute_delta
  refine ⟨rfl, rfl, rfl, rfl, rfl, rfl, ?_, ?_⟩
  · by_cases h : 0 < after.total_frames - before.total_frames
    · simp only [if_pos h]
    · simp only [if_neg h]
      show pyRound (0 : ℚ) 2 = 0
      unfold pyRound
      rw [show ((0 : ℚ) * 10 ^ 2) = ((0 : ℤ) : ℚ) by norm_num,
        roundHalfEven_intCast]
      norm_num
  · intro h
    simp only at h
    simp only [h]
    show pyRound (if (0:ℤ) < 0 then _ else (0:ℚ)) 2 = 0
    simp only [lt_irrefl, if_false]
    unfold pyRound
    rw [show ((0 : ℚ) * 10 ^ 2) = ((0 : ℤ) : ℚ) by norm_num,
      roundHalfEven_intCast]
    norm_num

/-- Witness for C6 at a concrete snapshot pair with
`frames_during_test = 0`. -/
theorem C6_compute_delta_guarded_witness :
    (compute_delta ⟨"", 120, 7, 0⟩ ⟨"", 120, 9, 0⟩).frames_during_test = 0 ∧
    (compute_delta ⟨"", 120, 7, 0⟩ ⟨"", 120, 9, 0⟩).jank_pct_during_test = 0 := by
  have h := C6_compute_delta_guarded ⟨"", 120, 7, 0⟩ ⟨"", 120, 9, 0⟩
  have h0 : (compute_delta ⟨"", 120, 7, 0⟩ ⟨"", 120, 9, 0⟩).frames_during_test = 0 := by
    rw [h.2.2.2.2.1]; decide
  exact ⟨h0, h.2.2.2.2.2.2.2 h0⟩

/-! ## Claim C9 — logcat offsets -/

/-- A log line whose timestamp field (if the line matched the regex at
all) parses under `strptime`. -/
def LogLine.tsValid : LogLine → Prop
  | .noMatch => True
  | .matched ts _ _ _ => ts ≠ none

theorem logcatProcess_head_zero (tags : List String) :
    ∀ (lines : List LogLine) (e : LogcatEntry) (rest : List LogcatEntry),
      logcatProcess tags lines none = e :: rest →
      e.seconds_since_start = 0 := by
  intro lines
  induction lines with
  | nil => intro e rest h; simp [logcatProcess] at h
  | cons l ls ih =>
    intro e rest h
    cases l with
    | noMatch =>
      simp only [logcatProcess] at h
      exact ih e rest h
    | matched ts lvl tag msg =>
      simp only [logcatProcess] at h
      by_cases hk : (tags.any (fun t => pyIn t tag)) = true
      · rw [if_pos hk] at h
        cases ts with
        | none => injection h with h1 h2; rw [← h1]
        | some t => injection h with h1 h2; rw [← h1]
      · rw [if_neg hk] at h
        exact ih e rest h

theorem logcatProcess_offsets_from (tags : List String) :
    ∀ (lines : List LogLine), (∀ l ∈ lines, l.tsValid) →
      ∀ (f : ℤ), ∀ e ∈ logcatProcess tags lines (some f),
        ∃ m : ℤ, e.timestamp = some m ∧
          e.seconds_since_start = ((m - f : ℤ) : ℚ) / 1000 := by
  intro lines
  induction lines with
  | nil => intro _ f e he; simp [logcatProcess] at he
  | cons l ls ih =>
    intro hv f e he
    have hvl := hv l (List.mem_cons_self l ls)
    have hvs : ∀ l' ∈ ls, l'.tsValid := fun l' h' => hv l' (List.mem_cons_of_mem l h')
    cases l with
    | noMatch =>
      simp only [logcatProcess] at he
      exact ih hvs f e he
    | matched ts lvl tag msg =>
      simp only [logcatProcess] at he
      by_cases hk : (tags.any (fun t => pyIn t tag)) = true
      · rw [if_pos hk] at he
        cases ts with
        | none => exact absurd rfl hvl
        | some t =>
          rcases List.mem_cons.mp he with h | h
          · refine ⟨t, by rw [h], ?_⟩
            rw [h]
            show pyRound (((t - f : ℤ) : ℚ) / 1000) 3 = _
            exact pyRound_eq_self (t - f) (by push_cast; ring)
          · exact ih hvs f e h
      · rw [if_neg hk] at he
        exact ih hvs f e he

/-- C9: every kept logcat entry's `seconds_since_start` is its timestamp
offset (in seconds) from the first kept entry, and the first kept entry
always has offset `0.0`.  The offset statement presupposes (as the claim
does) that the captured lines' timestamps parse. -/
theorem C9_logcat_offsets :
    (∀ (lines : List LogLine) (e : LogcatEntry) (rest : List LogcatEntry),
      capture_logcat_entries lines = e :: rest → e.seconds_since_start = 0) ∧
    (∀ (lines : List LogLine), (∀ l ∈ lines, l.tsValid) →
      ∀ (e : LogcatEntry) (rest : List LogcatEntry),
        capture_logcat_entries lines = e :: rest →
        ∃ m₀ : ℤ, e.timestamp = some m₀ ∧
          ∀ e' ∈ e :: rest, ∃ m : ℤ, e'.timestamp = some m ∧
            e'.seconds_since_start = ((m - m₀ : ℤ) : ℚ) / 1000) := by
  constructor
  · exact fun lines => logcatProcess_head_zero LOGCAT_TAGS lines
  · intro lines
    unfold capture_logcat_entries
    induction lines with
    | nil => intro _ e rest h; simp [logcatProcess] at h
    | cons l ls ih =>
      intro hv e rest h
      have hvl := hv l (List.mem_cons_self l ls)
      have hvs : ∀ l' ∈ ls, l'.tsValid := fun l' h' => hv l' (List.mem_cons_of_mem l h')
      cases l with
      | noMatch =>
        simp only [logcatProcess] at h
        exact ih hvs e rest h
      | matched ts lvl tag msg =>
        simp only [logcatProcess] at h
        by_cases hk : (LOGCAT_TAGS.any (fun t => pyIn t tag)) = true
        · rw [if_pos hk] at h
          cases ts with
          | none => exact absurd rfl hvl
          | some t =>
            injection h with h1 h2
            refine ⟨t, by rw [← h1], ?_⟩
            intro e' he'
            rcases List.mem_cons.mp he' with h' | h'
            · exact ⟨t, by rw [h', ← h1], by rw [h', ← h1]; simp⟩
            · exact logcatProcess_offsets_from LOGCAT_TAGS ls hvs t e'
                (h2 ▸ h')
        · rw [if_neg hk] at h
          exact ih hvs e rest h

/-! ## Layer 2 — `layer2_analysis.py`

### Block-based SSIM (`_compute_ssim_pair`)

A grayscale image is a pixel matrix; `Image.open(path).convert("L")` is an
environment `String → Option (Img K)` (`none` models an unreadable or
undecodable file, whose exception the source catches).  `PIL`'s
`Image.resize((w, h), LANCZOS)` is an environment parameter producing the
resampled pixel function for the requested dimensions. -/

/-- A grayscale image: dimensions plus pixel function (`px row col`,
matching `numpy`'s `arr[r][c]`). -/
structure Img (K : Type) where
  width : ℕ
  height : ℕ
  px : ℕ → ℕ → K

/-- `Image.open(path).convert("L")`. -/
abbrev ImgEnv (K : Type) := String → Option (Img K)

/-- `img.resize((w, h), Image.LANCZOS)`: the resampled pixel function for
target width `w` and height `h`. -/
abbrev ResizeFn (K : Type) := Img K → ℕ → ℕ → ℕ → ℕ → K

/-- `C1 = (0.01 * 255) ** 2` from layer2_analysis.py. -/
def ssimC1 : K := (255 / 100) ^ 2

/-- `C2 = (0.03 * 255) ** 2` from layer2_analysis.py. -/
def ssimC2 : K := (765 / 100) ^ 2

theorem ssimC1_pos : (0 : K) < ssimC1 := by unfold ssimC1; positivity

theorem ssimC2_pos : (0 : K) < ssimC2 := by unfold ssimC2; positivity

/-- `block.mean()` for the `bs × bs` block whose top-left corner is
`(r, c)` of the pixel function `f`. -/
def blockMean (f : ℕ → ℕ → K) (r c bs : ℕ) : K :=
  (∑ p ∈ Finset.range bs ×ˢ Finset.range bs, f (r + p.1) (c + p.2))
    / ((bs * bs : ℕ) : K)

/-- `((block_a - mu_a) * (block_b - mu_b)).mean()`; with `fa = fb` this is
`numpy`'s `block.var()`. -/
def blockCov (fa fb : ℕ → ℕ → K) (r c bs : ℕ) : K :=
  (∑ p ∈ Finset.range bs ×ˢ Finset.range bs,
      (fa (r + p.1) (c + p.2) - blockMean fa r c bs)
        * (fb (r + p.1) (c + p.2) - blockMean fb r c bs))
    / ((bs * bs : ℕ) : K)

/-- One iteration of the block loop of `_compute_ssim_pair`
(layer2_analysis.py lines 63–75): the per-block structural similarity,
`1.0` when the denominator is not positive. -/
def blockSSIM (fa fb : ℕ → ℕ → K) (r c bs : ℕ) : K :=
  let mu_a := blockMean fa r c bs
  let mu_b := blockMean fb r c bs
  let sigma_a_sq := blockCov fa fa r c bs
  let sigma_b_sq := blockCov fb fb r c bs
  let sigma_ab := blockCov fa fb r c bs
  let numerator := (2 * mu_a * mu_b + ssimC1) * (2 * sigma_ab + ssimC2)
  let denominator :=
    (mu_a ^ 2 + mu_b ^ 2 + ssimC1) * (sigma_a_sq + sigma_b_sq + ssimC2)
  if 0 < denominator then numerator / denominator else 1

/-- The block top-left corners `range(0, rows - block_size + 1,
block_size)` (natural subtraction models Python's empty range for
`rows < block_size`). -/
def blockStarts (rows bs : ℕ) : List ℕ :=
  (List.range ((rows + 1 - bs + (bs - 1)) / bs)).map (· * bs)

/-- `numpy.mean` of a score list. -/
def npMean (l : List K) : K := l.sum / (l.length : K)

/-- `float(np.mean(block_scores)) if block_scores else 1.0`. -/
def meanOrOne (l : List K) : K :=
  match l with
  | [] => 1
  | scores => npMean scores

/-- The `block_scores` list accumulated by the two nested loops
(row-major, exactly the source's iteration order). -/
def blockScores (a b : Img K) (bs : ℕ) : List K :=
  (blockStarts a.height bs).flatMap fun r =>
    (blockStarts a.width bs).map fun c => blockSSIM a.px b.px r c bs

/-- `_compute_ssim_pair(args)` (layer2_analysis.py lines 36–81): loads
both frames, resizes to width 360 preserving `img_a`'s aspect ratio,
averages per-block SSIM; any exception (unreadable file, zero width)
yields `1.0`, as does an empty block list. -/
def compute_ssim_pair (env : ImgEnv K) (rf : ResizeFn K)
    (args : String × String × ℕ) : K :=
  match env args.1, env args.2.1 with
  | some img_a, some img_b =>
    let block_size := args.2.2
    let w := img_a.width
    let h := img_a.height
    -- `scale = RESIZE_WIDTH / w` raises `ZeroDivisionError` on a
    -- degenerate zero-width image; the `except` clause returns 1.0.
    if w = 0 then 1
    else
      let new_h := h * 360 / w
      let arr_a : Img K := ⟨360, new_h, rf img_a 360 new_h⟩
      let arr_b : Img K := ⟨360, new_h, rf img_b 360 new_h⟩
      meanOrOne (blockScores arr_a arr_b block_size)
  | _, _ => 1

/-! ### Per-block bounds -/

theorem blockMean_nonneg (f : ℕ → ℕ → K) (hf : ∀ r c, 0 ≤ f r c)
    (r c bs : ℕ) : 0 ≤ blockMean f r c bs := by
  unfold blockMean
  exact div_nonneg (Finset.sum_nonneg fun p _ => hf _ _) (Nat.cast_nonneg _)

theorem blockCov_self_nonneg (f : ℕ → ℕ → K) (r c bs : ℕ) :
    0 ≤ blockCov f f r c bs := by
  unfold blockCov
  exact div_nonneg
    (Finset.sum_nonneg fun p _ => mul_self_nonneg _) (Nat.cast_nonneg _)

theorem blockCov_two_mul_le (fa fb : ℕ → ℕ → K) (r c bs : ℕ) :
    2 * blockCov fa fb r c bs
      ≤ blockCov fa fa r c bs + blockCov fb fb r c bs := by
  have key : blockCov fa fa r c bs + blockCov fb fb r c bs
      - 2 * blockCov fa fb r c bs
      = (∑ p ∈ Finset.range bs ×ˢ Finset.range bs,
          ((fa (r + p.1) (c + p.2) - blockMean fa r c bs)
            - (fb (r + p.1) (c + p.2) - blockMean fb r c bs)) ^ 2)
        / ((bs * bs : ℕ) : K) := by
    unfold blockCov
    rw [div_add_div_same, ← mul_div_assoc, div_sub_div_same]
    congr 1
    rw [← Finset.sum_add_distrib, Finset.mul_sum, ← Finset.sum_sub_distrib]
    exact Finset.sum_congr rfl fun p _ => by ring
  have hnn : 0 ≤ blockCov fa fa r c bs + blockCov fb fb r c bs
      - 2 * blockCov fa fb r c bs := by
    rw [key]
    exact div_nonneg (Finset.sum_nonneg fun p _ => sq_nonneg _) (Nat.cast_nonneg _)
  linarith

theorem blockCov_neg_le_two_mul (fa fb : ℕ → ℕ → K) (r c bs : ℕ) :
    -(blockCov fa fa r c bs + blockCov fb fb r c bs)
      ≤ 2 * blockCov fa fb r c bs := by
  have key : blockCov fa fa r c bs + blockCov fb fb r c bs
      + 2 * blockCov fa fb r c bs
      = (∑ p ∈ Finset.range bs ×ˢ Finset.range bs,
          ((fa (r + p.1) (c + p.2) - blockMean fa r c bs)
            + (fb (r + p.1) (c + p.2) - blockMean fb r c bs)) ^ 2)
        / ((bs * bs : ℕ) : K) := by
    unfold blockCov
    rw [div_add_div_same, ← mul_div_assoc, div_add_div_same]
    congr 1
    rw [← Finset.sum_add_distrib, Finset.mul_sum, ← Finset.sum_add_distrib]
    exact Finset.sum_congr rfl fun p _ => by ring
  have hnn : 0 ≤ blockCov fa fa r c bs + blockCov fb fb r c bs
      + 2 * blockCov fa fb r c bs := by
    rw [key]
    exact div_nonneg (Finset.sum_nonneg fun p _ => sq_nonneg _) (Nat.cast_nonneg _)
  linarith

/-- With nonnegative (grayscale) pixel values, each per-block similarity
lies in `[-1, 1]`. -/
theorem blockSSIM_bounds (fa fb : ℕ → ℕ → K)
    (ha : ∀ r c, 0 ≤ fa r c) (hb : ∀ r c, 0 ≤ fb r c) (r c bs : ℕ) :
    -1 ≤ blockSSIM fa fb r c bs ∧ blockSSIM fa fb r c bs ≤ 1 := by
  unfold blockSSIM
  dsimp only
  set μa := blockMean fa r c bs with hμa
  set μb := blockMean fb r c bs with hμb
  set σaa := blockCov fa fa r c bs with hσaa
  set σbb := blockCov fb fb r c bs with hσbb
  set σab := blockCov fa fb r c bs with hσab
  by_cases hden : 0 < (μa ^ 2 + μb ^ 2 + ssimC1) * (σaa + σbb + ssimC2)
  · rw [if_pos hden]
    have hμa0 : 0 ≤ μa := blockMean_nonneg fa ha r c bs
    have hμb0 : 0 ≤ μb := blockMean_nonneg fb hb r c bs
    have hP : (0:K) < 2 * μa * μb + ssimC1 := by
      nlinarith [ssimC1_pos (K := K)]
    have hPR : 2 * μa * μb + ssimC1 ≤ μa ^ 2 + μb ^ 2 + ssimC1 := by
      nlinarith [sq_nonneg (μa - μb)]
    have hS : (0:K) < σaa + σbb + ssimC2 := by
      have := blockCov_self_nonneg fa r c bs
      have := blockCov_self_nonneg fb r c bs
      nlinarith [ssimC2_pos (K := K)]
    have hQS : 2 * σab + ssimC2 ≤ σaa + σbb + ssimC2 := by
      linarith [blockCov_two_mul_le fa fb r c bs]
    have hQSneg : -(σaa + σbb + ssimC2) ≤ 2 * σab + ssimC2 := by
      have := blockCov_neg_le_two_mul fa fb r c bs
      nlinarith [ssimC2_pos (K := K)]
    constructor
    · rw [le_div_iff hden]
      nlinarith [mul_nonneg hP.le (by linarith : (0:K) ≤ 2 * σab + ssimC2 + (σaa + σbb + ssimC2)),
        mul_nonneg (by linarith : (0:K) ≤ (μa ^ 2 + μb ^ 2 + ssimC1) - (2 * μa * μb + ssimC1)) hS.le]
    · rw [div_le_one hden]
      nlinarith [mul_le_mul_of_nonneg_left hQS hP.le,
        mul_le_mul_of_nonneg_right hPR hS.le]
  · rw [if_neg hden]
    norm_num

/-- Comparing a pixel function against itself gives per-block similarity
exactly `1`. -/
theorem blockSSIM_self (f : ℕ → ℕ → K) (r c bs : ℕ) :
    blockSSIM f f r c bs = 1 := by
  unfold blockSSIM
  dsimp only
  set μ := blockMean f r c bs with hμ
  set σ := blockCov f f r c bs with hσ
  have hσ0 : 0 ≤ σ := blockCov_self_nonneg f r c bs
  have hden : (0:K) < (μ ^ 2 + μ ^ 2 + ssimC1) * (σ + σ + ssimC2) := by
    have h1 : (0:K) < μ ^ 2 + μ ^ 2 + ssimC1 := by
      nlinarith [sq_nonneg μ, ssimC1_pos (K := K)]
    have h2 : (0:K) < σ + σ + ssimC2 := by
      nlinarith [ssimC2_pos (K := K)]
    exact mul_pos h1 h2
  rw [if_pos hden]
  have hnum : (2 * μ * μ + ssimC1) * (2 * σ + ssimC2)
      = (μ ^ 2 + μ ^ 2 + ssimC1) * (σ + σ + ssimC2) := by ring
  rw [hnum, div_self (ne_of_gt hden)]

/-- Every member of `block_scores` is a per-block similarity at a block
start. -/
theorem blockScores_mem (a b : Img K) (bs : ℕ) {x : K}
    (hx : x ∈ blockScores a b bs) :
    ∃ r ∈ blockStarts a.height bs, ∃ c ∈ blockStarts a.width bs,
      x = blockSSIM a.px b.px r c bs := by
  unfold blockScores at hx
  rcases List.mem_flatMap.mp hx with ⟨r, hrm, hr⟩
  rcases List.mem_map.mp hr with ⟨c, hcm, hc⟩
  exact ⟨r, hrm, c, hcm, hc.symm⟩

theorem npMean_bounds (l : List K) (lo hi : K)
    (h : ∀ x ∈ l, lo ≤ x ∧ x ≤ hi) (hne : l ≠ []) :
    lo ≤ npMean l ∧ npMean l ≤ hi := by
  have hlen : (0:K) < (l.length : K) := by
    exact_mod_cast List.length_pos.mpr hne
  constructor
  · rw [npMean, le_div_iff hlen]
    calc lo * (l.length : K) = l.length • lo := by
          rw [nsmul_eq_mul]; ring
      _ ≤ l.sum := List.card_nsmul_le_sum l lo fun x hx => (h x hx).1
  · rw [npMean, div_le_iff hlen]
    calc l.sum ≤ l.length • hi := List.sum_le_card_nsmul l hi fun x hx => (h x hx).2
      _ = hi * (l.length : K) := by rw [nsmul_eq_mul]; ring

theorem npMean_all_one (l : List K) (h : ∀ x ∈ l, x = 1) (hne : l ≠ []) :
    npMean l = 1 := by
  rw [npMean, List.eq_replicate_of_mem h, List.sum_replicate,
    List.length_replicate, nsmul_eq_mul, mul_one]
  exact div_self (by exact_mod_cast List.length_pos.mpr hne |>.ne')

theorem meanOrOne_bounds (l : List K) (h : ∀ x ∈ l, -1 ≤ x ∧ x ≤ 1) :
    -1 ≤ meanOrOne l ∧ meanOrOne l ≤ 1 := by
  cases l with
  | nil => unfold meanOrOne; norm_num
  | cons s rest =>
    show -1 ≤ npMean (s :: rest) ∧ npMean (s :: rest) ≤ 1
    exact npMean_bounds _ _ _ h (List.cons_ne_nil s rest)

theorem meanOrOne_all_one (l : List K) (h : ∀ x ∈ l, x = 1) :
    meanOrOne l = 1 := by
  cases l with
  | nil => rfl
  | cons s rest =>
    show npMean (s :: rest) = 1
    exact npMean_all_one _ h (List.cons_ne_nil s rest)

/-! ## Claim C5 — range of `_compute_ssim_pair` -/

/-- C5 (amended): for every image environment and every resampler
producing nonnegative (grayscale) pixel values, `_compute_ssim_pair` lies
in `[-1, 1]`.  (The claimed lower bound `0` fails, see the
counterexample: anti-correlated blocks make `2*sigma_ab + C2` negative.) -/
theorem C5_ssim_pair_bounds (env : ImgEnv K) (rf : ResizeFn K)
    (hr : ∀ img w h r c, 0 ≤ rf img w h r c) (args : String × String × ℕ) :
    -1 ≤ compute_ssim_pair env rf args ∧ compute_ssim_pair env rf args ≤ 1 := by
  obtain ⟨pa, pb, bs⟩ := args
  cases hpa : env pa with
  | none => simp only [compute_ssim_pair, hpa]; norm_num
  | some ia =>
    cases hpb : env pb with
    | none => simp only [compute_ssim_pair, hpa, hpb]; norm_num
    | some ib =>
      simp only [compute_ssim_pair, hpa, hpb]
      by_cases hw : ia.width = 0
      · rw [if_pos hw]; norm_num
      · rw [if_neg hw]
        apply meanOrOne_bounds
        intro x hx
        obtain ⟨r, _, c, _, rfl⟩ := blockScores_mem _ _ _ hx
        exact blockSSIM_bounds _ _ (fun r c => hr _ _ _ _ _)
          (fun r c => hr _ _ _ _ _) r c bs

theorem meanOrOne_const (l : List K) (v : K) (h : ∀ x ∈ l, x = v)
    (hne : l ≠ []) : meanOrOne l = v := by
  cases l with
  | nil => exact absurd rfl hne
  | cons s rest =>
    show npMean (s :: rest) = v
    rw [npMean, List.eq_replicate_of_mem h, List.sum_replicate,
      List.length_replicate, nsmul_eq_mul]
    exact mul_div_cancel_left₀ v
      (by exact_mod_cast (List.length_pos.mpr (List.cons_ne_nil s rest)).ne')

/-- Witness for C5 at a concrete environment and the all-zero resampler. -/
theorem C5_ssim_pair_bounds_witness :
    -1 ≤ compute_ssim_pair (K := ℚ) (fun _ => none) (fun _ _ _ _ _ => 0)
        ("a.jpg", "b.jpg", 8) ∧
      compute_ssim_pair (K := ℚ) (fun _ => none) (fun _ _ _ _ _ => 0)
        ("a.jpg", "b.jpg", 8) ≤ 1 :=
  C5_ssim_pair_bounds (fun _ => none) (fun _ _ _ _ _ => 0)
    (fun _ _ _ _ _ => le_refl 0) ("a.jpg", "b.jpg", 8)

/-! ### C5 counterexample: anti-correlated stripes give a negative score

Even rows of frame `a` are black (0) where frame `b` is light gray (16)
and vice versa.  Both frames are already 360 px wide, so the LANCZOS
resize to the same dimensions is the identity resample. -/

/-- Frame `a`: rows alternate 0, 16. -/
def pxStripesA : ℕ → ℕ → ℚ := fun r _ => if r % 2 = 0 then 0 else 16

/-- Frame `b`: rows alternate 16, 0. -/
def pxStripesB : ℕ → ℕ → ℚ := fun r _ => if r % 2 = 0 then 16 else 0

/-- The 360×8 stripe images, behind paths `a.jpg` / `b.jpg`. -/
def envStripes : ImgEnv ℚ := fun p =>
  if p = "a.jpg" then some ⟨360, 8, pxStripesA⟩
  else if p = "b.jpg" then some ⟨360, 8, pxStripesB⟩
  else none

/-- `PIL.Image.resize` at the source dimensions: the identity resample. -/
def resizeId : ResizeFn ℚ := fun img _ _ r c => img.px r c

theorem stripes_meanA (c : ℕ) : blockMean pxStripesA 0 c 8 = 8 := by
  unfold blockMean pxStripesA
  rw [Finset.sum_product]
  simp [Finset.sum_range_succ]
  norm_num

theorem stripes_meanB (c : ℕ) : blockMean pxStripesB 0 c 8 = 8 := by
  unfold blockMean pxStripesB
  rw [Finset.sum_product]
  simp [Finset.sum_range_succ]
  norm_num

theorem stripes_varA (c : ℕ) : blockCov pxStripesA pxStripesA 0 c 8 = 64 := by
  unfold blockCov
  rw [stripes_meanA, Finset.sum_product]
  unfold pxStripesA
  simp [Finset.sum_range_succ]
  norm_num

theorem stripes_varB (c : ℕ) : blockCov pxStripesB pxStripesB 0 c 8 = 64 := by
  unfold blockCov
  rw [stripes_meanB, Finset.sum_product]
  unfold pxStripesB
  simp [Finset.sum_range_succ]
  norm_num

theorem stripes_cov (c : ℕ) : blockCov pxStripesA pxStripesB 0 c 8 = -64 := by
  unfold blockCov
  rw [stripes_meanA, stripes_meanB, Finset.sum_product]
  unfold pxStripesA pxStripesB
  simp [Finset.sum_range_succ]
  norm_num

theorem stripes_blockSSIM (c : ℕ) :
    blockSSIM pxStripesA pxStripesB 0 c 8 = -(694775 : ℚ) / 1865225 := by
  unfold blockSSIM
  dsimp only
  rw [stripes_meanA, stripes_meanB, stripes_varA, stripes_varB, stripes_cov]
  rw [if_pos (by norm_num [ssimC1, ssimC2] :
    (0:ℚ) < ((8:ℚ) ^ 2 + 8 ^ 2 + ssimC1) * (64 + 64 + ssimC2))]
  norm_num [ssimC1, ssimC2]

/-- C5 counterexample: on the 360×8 anti-correlated stripe frames the
score returned by `_compute_ssim_pair` is negative, refuting the claimed
lower bound `0`. -/
theorem C5_ssim_pair_negative_counterexample :
    compute_ssim_pair envStripes resizeId ("a.jpg", "b.jpg", 8) < 0 := by
  have helem : ∀ x ∈ blockScores
      (⟨360, 8, resizeId ⟨360, 8, pxStripesA⟩ 360 8⟩ : Img ℚ)
      (⟨360, 8, resizeId ⟨360, 8, pxStripesB⟩ 360 8⟩ : Img ℚ) 8,
      x = -(694775 : ℚ) / 1865225 := by
    intro x hx
    obtain ⟨r, hr, c, hc, rfl⟩ := blockScores_mem _ _ _ hx
    have hb : blockStarts
        (⟨360, 8, resizeId ⟨360, 8, pxStripesA⟩ 360 8⟩ : Img ℚ).height 8
        = [0] := by decide
    rw [hb] at hr
    have hr0 : r = 0 := List.mem_singleton.mp hr
    subst hr0
    have hpxa : (⟨360, 8, resizeId ⟨360, 8, pxStripesA⟩ 360 8⟩ : Img ℚ).px
        = pxStripesA := rfl
    have hpxb : (⟨360, 8, resizeId ⟨360, 8, pxStripesB⟩ 360 8⟩ : Img ℚ).px
        = pxStripesB := rfl
    rw [hpxa, hpxb]
    exact stripes_blockSSIM c
  have hne : blockScores
      (⟨360, 8, resizeId ⟨360, 8, pxStripesA⟩ 360 8⟩ : Img ℚ)
      (⟨360, 8, resizeId ⟨360, 8, pxStripesB⟩ 360 8⟩ : Img ℚ) 8 ≠ [] := by
    decide
  have hmean := meanOrOne_const _ _ helem hne
  have hgoal : compute_ssim_pair envStripes resizeId ("a.jpg", "b.jpg", 8)
      = meanOrOne (blockScores
          (⟨360, 8, resizeId ⟨360, 8, pxStripesA⟩ 360 8⟩ : Img ℚ)
          (⟨360, 8, resizeId ⟨360, 8, pxStripesB⟩ 360 8⟩ : Img ℚ) 8) := by
    simp only [compute_ssim_pair, envStripes]
    rw [if_neg (by decide : ¬ ("b.jpg" = "a.jpg"))]
    norm_num
  rw [hgoal, hmean]
  norm_num

/-! ## Claim C8 — identical frames -/

/-- When both paths resolve to the same image (or both fail to load),
`_compute_ssim_pair` returns exactly `1`. -/
theorem compute_ssim_pair_of_eq (env : ImgEnv K) (rf : ResizeFn K)
    (pa pb : String) (bs : ℕ) (h : env pa = env pb) :
    compute_ssim_pair env rf (pa, pb, bs) = 1 := by
  cases hpa : env pa with
  | none =>
    have hpb : env pb = none := h.symm.trans hpa
    simp only [compute_ssim_pair, hpa, hpb]
  | some img =>
    have hpb : env pb = some img := h.symm.trans hpa
    simp only [compute_ssim_pair, hpa, hpb]
    by_cases hw : img.width = 0
    · rw [if_pos hw]
    · rw [if_neg hw]
      apply meanOrOne_all_one
      intro x hx
      obtain ⟨r, _, c, _, rfl⟩ := blockScores_mem _ _ _ hx
      exact blockSSIM_self _ r c bs

/-- C8: for every pair of identical frames the block-based similarity
score exceeds `0.99` (it is exactly `1`). -/
theorem C8_identical_frames (env : ImgEnv K) (rf : ResizeFn K)
    (pa pb : String) (bs : ℕ) (h : env pa = env pb) :
    (0.99 : K) < compute_ssim_pair env rf (pa, pb, bs) := by
  rw [compute_ssim_pair_of_eq env rf pa pb bs h]
  norm_num

/-- Witness for C8: the stripe image behind both paths. -/
theorem C8_identical_frames_witness :
    (0.99 : ℚ) < compute_ssim_pair (fun _ => some ⟨360, 8, pxStripesA⟩)
      resizeId ("a.jpg", "a.jpg", 8) :=
  C8_identical_frames (fun _ => some ⟨360, 8, pxStripesA⟩) resizeId
    "a.jpg" "a.jpg" 8 rfl

/-! ## Claim C4 — `compute_ssim_parallel`

`ProcessPoolExecutor.map` dispatches one task per frame pair to isolated
workers and reassembles the results in task order regardless of the order
in which workers complete.  The completion order is modelled as an
explicit `schedule` (a permutation of the task indices); the worker pool
size `max_workers` only configures parallelism and does not influence the
result. -/

/-- The executor: workers finish in `schedule` order (producing the
`completed` association list), and the results are reassembled by
original task index. -/
def executorMap {α β : Type} (f : α → β) (tasks : List α)
    (schedule : List ℕ) : List β :=
  let completed : List (ℕ × β) :=
    schedule.filterMap fun i => (tasks[i]?).map fun t => (i, f t)
  (List.range tasks.length).filterMap fun i =>
    (completed.find? fun p => p.1 == i).map fun p => p.2

theorem filterMap_eq_map_of_forall {α β : Type} (l : List α)
    (g : α → Option β) (h : α → β) (H : ∀ a ∈ l, g a = some (h a)) :
    l.filterMap g = l.map h := by
  induction l with
  | nil => rfl
  | cons a l ih =>
    rw [List.filterMap_cons, H a (List.mem_cons_self a l), List.map_cons,
      ih fun a ha => H a (List.mem_cons_of_mem _ ha)]

/-- Reassembling by index over the full index range recovers the mapped
list. -/
theorem range_filterMap_getElem {α β : Type} (f : α → β) :
    ∀ tasks : List α,
      (List.range tasks.length).filterMap (fun i => (tasks[i]?).map f)
        = tasks.map f := by
  intro tasks
  induction tasks with
  | nil => rfl
  | cons a l ih =>
    rw [List.length_cons, List.range_succ_eq_map, List.filterMap_cons,
      List.filterMap_map]
    simp only [List.getElem?_cons_zero, Option.map_some', Function.comp_def,
      List.getElem?_cons_succ]
    rw [List.map_cons, ih]

/-- For every completion schedule that is a permutation of the task
indices, the executor returns exactly `tasks.map f`. -/
theorem executorMap_perm {α β : Type} (f : α → β) (tasks : List α)
    (schedule : List ℕ)
    (hperm : schedule.Perm (List.range tasks.length)) :
    executorMap f tasks schedule = tasks.map f := by
  unfold executorMap
  have hcomp : ∀ p ∈ schedule.filterMap
      (fun i => (tasks[i]?).map fun t => (i, f t)),
      ∃ hp : p.1 < tasks.length, p.2 = f (tasks[p.1]) := by
    intro p hp
    rcases List.mem_filterMap.mp hp with ⟨i, _, hi⟩
    rcases Option.map_eq_some'.mp hi with ⟨t, ht, hpt⟩
    have hlt : i < tasks.length := by
      by_contra hge
      rw [List.getElem?_eq_none (le_of_not_lt hge)] at ht
      exact Option.noConfusion ht
    rw [List.getElem?_eq_getElem hlt] at ht
    have ht2 : tasks[i] = t := by injection ht
    cases hpt
    exact ⟨hlt, by show f t = f tasks[i]; rw [ht2]⟩
  have hfind : ∀ i (hi : i < tasks.length),
      (schedule.filterMap (fun i => (tasks[i]?).map fun t => (i, f t))).find?
        (fun p => p.1 == i) = some (i, f (tasks[i])) := by
    intro i hi
    have hmem : (i, f (tasks[i])) ∈ schedule.filterMap
        (fun i => (tasks[i]?).map fun t => (i, f t)) := by
      apply List.mem_filterMap.mpr
      refine ⟨i, ?_, by rw [List.getElem?_eq_getElem hi]; rfl⟩
      exact (hperm.mem_iff).mpr (List.mem_range.mpr hi)
    rcases hfound : (schedule.filterMap
        (fun i => (tasks[i]?).map fun t => (i, f t))).find?
        (fun p => p.1 == i) with _ | p
    · exact absurd (List.find?_eq_none.mp hfound _ hmem) (by simp)
    · have hp1 : p.1 = i := by
        have := List.find?_some hfound
        simpa using this
      obtain ⟨hlt, hp2⟩ := hcomp p (List.mem_of_find?_eq_some hfound)
      have hpeq : p = (i, f (tasks[i])) := by
        cases p
        simp only at hp1 hp2
        subst hp1
        rw [Prod.mk.injEq]
        refine ⟨rfl, ?_⟩
        rw [hp2]
      rw [hpeq] at hfound
      exact hfound
  rw [← range_filterMap_getElem f tasks]
  apply List.filterMap_congr
  intro i hi
  have hi' : i < tasks.length := List.mem_range.mp hi
  rw [hfind i hi', List.getElem?_eq_getElem hi']
  rfl

/-- `FrameAnalyzer.compute_ssim_parallel` (layer2_analysis.py lines
186–206): fewer than 2 frames give `[]`; otherwise one task per
consecutive pair `(frame_paths[i], frame_paths[i+1], block_size)` is
dispatched to the pool (`max_workers` only sizes the pool; `schedule` is
the workers' completion order) and the collected scores are rounded to
6 digits. -/
def compute_ssim_parallel (env : ImgEnv K) (rf : ResizeFn K)
    (frame_paths : List String) (max_workers : ℕ) (block_size : ℕ)
    (schedule : List ℕ) : List K :=
  if frame_paths.length < 2 then []
  else
    let pairs : List (String × String × ℕ) :=
      (frame_paths.zip frame_paths.tail).map fun p => (p.1, p.2, block_size)
    let scores := executorMap (compute_ssim_pair env rf) pairs schedule
    scores.map fun s => pyRound s 6

/-- C4: for `N ≥ 2` frames, any pool size from 1 to `N-1` and any worker
completion order, `compute_ssim_parallel` returns exactly `N-1` scores
with the score at index `i` being the (rounded) similarity of the pair
`(frame[i], frame[i+1])`; fewer than 2 frames give `[]`. -/
theorem C4_parallel_ssim_order (env : ImgEnv K) (rf : ResizeFn K)
    (frames : List String) (w bs : ℕ) (schedule : List ℕ) :
    (frames.length < 2 →
      compute_ssim_parallel env rf frames w bs schedule = []) ∧
    (2 ≤ frames.length → 1 ≤ w → w ≤ frames.length - 1 →
      schedule.Perm (List.range (frames.length - 1)) →
      (compute_ssim_parallel env rf frames w bs schedule).length
          = frames.length - 1 ∧
        ∀ i (hi : i < frames.length - 1),
          (compute_ssim_parallel env rf frames w bs schedule)[i]?
            = some (pyRound (compute_ssim_pair env rf
                (frames[i], frames[i + 1], bs)) 6)) := by
  constructor
  · intro hlt
    unfold compute_ssim_parallel
    rw [if_pos hlt]
  · intro hge _ _ hperm
    unfold compute_ssim_parallel
    rw [if_neg (not_lt.mpr hge)]
    have hzl : (frames.zip frames.tail).length = frames.length - 1 := by
      rw [List.length_zip, List.length_tail]
      omega
    have hpl : ((frames.zip frames.tail).map
        fun p => (p.1, p.2, bs)).length = frames.length - 1 := by
      rw [List.length_map, hzl]
    have hex := executorMap_perm (compute_ssim_pair env rf)
      ((frames.zip frames.tail).map fun p => (p.1, p.2, bs)) schedule
      (by rw [hpl]; exact hperm)
    simp only [hex]
    constructor
    · simp only [List.length_map, List.length_zip, List.length_tail]
      omega
    · intro i hi
      have hiz : i < (frames.zip frames.tail).length := by
        simp only [List.length_zip, List.length_tail]
        omega
      simp only [List.getElem?_map]
      rw [List.getElem?_eq_getElem hiz]
      simp only [Option.map_some', List.getElem_zip, List.getElem_tail]

/-! ## Layer 2 — `classify_flickers` -/

/-- `scores[i]` as Python reads it inside the classifier loops (all
accesses are in bounds there; out-of-range reads default to `0`). -/
def sAt (l : List K) (i : ℕ) : K := l.getD i 0

/-- Python's `min` of a (nonempty) list. -/
def pyMin : List K → K
  | [] => 0
  | x :: xs => xs.foldl min x

/-- `services/models.py` `FlickerEvent` (the enrichment fields
`logcat_events`, `gpt_analysis`, `region_diff` are carried by the
pipeline model separately). -/
structure FlickerEvent (K : Type) where
  start_frame : ℕ
  end_frame : ℕ
  start_time : K
  end_time : K
  duration_ms : K
  pattern : String
  ssim_scores : List K
  severity : String
  frame_paths : List String

/-- `FrameAnalyzer._is_oscillation` (layer2_analysis.py lines 296–310):
counts sign changes of `score >= threshold` over
`range(start+1, min(end+3, len(scores)))`. -/
def isOscillation (scores : List K) (start endI : ℕ) (threshold : K) : Bool :=
  if endI - start < 2 then false
  else
    let fin := min (endI + 3) scores.length
    let state := (List.range' (start + 1) (fin - (start + 1))).foldl
      (fun st i =>
        let current_above : Bool := decide (threshold ≤ sAt scores i)
        if current_above ≠ st.1 then (current_above, st.2 + 1) else st)
      (decide (threshold ≤ sAt scores start), 0)
    decide (3 ≤ state.2)

/-- Length of the maximal below-threshold run starting at `i` (the inner
`while` of `classify_flickers`). -/
def belowRunLen (scores : List K) (threshold : K) (i : ℕ) : ℕ :=
  ((scores.drop i).takeWhile fun s => decide (s < threshold)).length

omit [FloorRing K] in
theorem belowRunLen_pos (scores : List K) (threshold : K) (i : ℕ)
    (hi : i < scores.length) (hb : sAt scores i < threshold) :
    1 ≤ belowRunLen scores threshold i := by
  unfold belowRunLen
  rw [List.drop_eq_getElem_cons hi, List.takeWhile_cons,
    if_pos (by rw [decide_eq_true_eq]; rw [sAt, List.getD_eq_getElem _ _ hi] at hb; exact hb)]
  simp

/-- The `while` loop of `FrameAnalyzer.classify_flickers`
(layer2_analysis.py lines 242–293) from scan position `i`: a
below-threshold score opens a run, the inner loop extends it to its
maximal length, one `FlickerEvent` is emitted, and scanning resumes after
the run. -/
def classifyFrom (scores : List K) (threshold : K) (frame_paths : List String)
    (fps : ℕ) (i : ℕ) : List (FlickerEvent K) :=
  if hi : i < scores.length then
    if hb : sAt scores i < threshold then
      let start := i
      let len := belowRunLen scores threshold i
      let endI := start + len - 1
      let event_scores := (scores.drop start).take (endI + 1 - start)
      let start_time : K := (start : K) / (fps : K)
      let end_time : K := ((endI + 1 : ℕ) : K) / (fps : K)
      let duration_ms : K := (end_time - start_time) * 1000
      let pattern :=
        if endI - start = 0 then "single_glitch"
        else if isOscillation scores start endI threshold then
          "rapid_oscillation"
        else "sustained_change"
      let min_ssim := pyMin event_scores
      let severity :=
        if min_ssim < 1/2 ∨ duration_ms > 1000 then "HIGH"
        else if min_ssim < 7/10 ∨ duration_ms > 500 then "MEDIUM"
        else "LOW"
      let event_frame_paths :=
        ((frame_paths.drop start).take
          (min (endI + 2) frame_paths.length - start)).take 4
      { start_frame := start, end_frame := endI,
        start_time := pyRound start_time 3, end_time := pyRound end_time 3,
        duration_ms := pyRound duration_ms 1, pattern := pattern,
        ssim_scores := event_scores, severity := severity,
        frame_paths := event_frame_paths }
        :: classifyFrom scores threshold frame_paths fps (i + len)
    else classifyFrom scores threshold frame_paths fps (i + 1)
  else []
termination_by scores.length - i
decreasing_by
· have := belowRunLen_pos scores threshold i hi hb
  omega
· omega

/-- `FrameAnalyzer.classify_flickers`: scan from index 0. -/
def classify_flickers (scores : List K) (threshold : K)
    (frame_paths : List String) (fps : ℕ) : List (FlickerEvent K) :=
  classifyFrom scores threshold frame_paths fps 0

/-! ### Maximal below-threshold runs -/

theorem takeWhile_length_le {α : Type} (p : α → Bool) (l : List α) :
    (l.takeWhile p).length ≤ l.length :=
  (List.takeWhile_prefix p).length_le

theorem takeWhile_sat {α : Type} (p : α → Bool) (l : List α) (j : ℕ)
    (hj : j < (l.takeWhile p).length) (hjl : j < l.length) :
    p l[j] = true := by
  have hget := (List.takeWhile_prefix p (l := l)).getElem hj
  rw [← hget]
  exact List.mem_takeWhile_imp (List.getElem_mem hj)

theorem takeWhile_stop {α : Type} (p : α → Bool) :
    ∀ (l : List α) (n : ℕ), n = (l.takeWhile p).length →
      ∀ h : n < l.length, p l[n] = false := by
  intro l
  induction l with
  | nil => intro n _ h; simp at h
  | cons a l ih =>
    intro n hn h
    cases hp : p a with
    | true =>
      rw [List.takeWhile_cons, if_pos hp, List.length_cons] at hn
      subst hn
      rw [List.getElem_cons_succ]
      exact ih _ rfl _
    | false =>
      rw [List.takeWhile_cons, if_neg (by simp [hp]), List.length_nil] at hn
      subst hn
      rw [List.getElem_cons_zero]
      exact hp

omit [FloorRing K] in
theorem belowRunLen_le (scores : List K) (threshold : K) (i : ℕ) :
    belowRunLen scores threshold i ≤ scores.length - i := by
  unfold belowRunLen
  have := takeWhile_length_le (fun s => decide (s < threshold)) (scores.drop i)
  simpa using this

omit [FloorRing K] in
theorem belowRunLen_below (scores : List K) (threshold : K) (i : ℕ) :
    ∀ k, i ≤ k → k < i + belowRunLen scores threshold i →
      sAt scores k < threshold := by
  intro k hik hk
  obtain ⟨j, rfl⟩ : ∃ j, k = i + j := ⟨k - i, by omega⟩
  have hj : j < belowRunLen scores threshold i := by omega
  have hkl : i + j < scores.length := by
    have := belowRunLen_le scores threshold i
    omega
  unfold belowRunLen at hj
  have hsat := takeWhile_sat (fun s => decide (s < threshold))
    (scores.drop i) j hj (by rw [List.length_drop]; omega)
  rw [List.getElem_drop, decide_eq_true_eq] at hsat
  rw [sAt, List.getD_eq_getElem _ _ hkl]
  exact hsat

omit [FloorRing K] in
theorem belowRunLen_stop (scores : List K) (threshold : K) (i : ℕ)
    (h : i + belowRunLen scores threshold i < scores.length) :
    ¬ sAt scores (i + belowRunLen scores threshold i) < threshold := by
  intro hc
  have hlt : belowRunLen scores threshold i < (scores.drop i).length := by
    rw [List.length_drop]
    omega
  have hstop := takeWhile_stop (fun s => decide (s < threshold))
    (scores.drop i) (belowRunLen scores threshold i) rfl hlt
  rw [List.getElem_drop, decide_eq_false_iff_not] at hstop
  apply hstop
  rw [sAt, List.getD_eq_getElem _ _ h] at hc
  exact hc

/-- A maximal contiguous run of below-threshold scores: every score in
`[a, b]` is strictly below the threshold and the run can be extended in
neither direction.  This is the specification-side notion the classifier
is claimed to enumerate. -/
def IsMaximalRun (scores : List K) (threshold : K) (a b : ℕ) : Prop :=
  a ≤ b ∧ b < scores.length ∧
  (∀ k, a ≤ k → k ≤ b → sAt scores k < threshold) ∧
  (a = 0 ∨ threshold ≤ sAt scores (a - 1)) ∧
  (b + 1 = scores.length ∨ threshold ≤ sAt scores (b + 1))

/-- The claimed severity rule, as a function of the run's minimum score
and its (unrounded) duration in milliseconds. -/
def severityOf (min_ssim duration_ms : K) : String :=
  if min_ssim < 1/2 ∨ duration_ms > 1000 then "HIGH"
  else if min_ssim < 7/10 ∨ duration_ms > 500 then "MEDIUM"
  else "LOW"

/-- What `classify_flickers` guarantees for each event it emits when
scanning from position `i`. -/
def EventSpec (scores : List K) (threshold : K) (fps : ℕ) (i : ℕ)
    (e : FlickerEvent K) : Prop :=
  i ≤ e.start_frame ∧
  e.start_frame ≤ e.end_frame ∧
  e.end_frame < scores.length ∧
  (∀ k, e.start_frame ≤ k → k ≤ e.end_frame → sAt scores k < threshold) ∧
  (e.end_frame + 1 = scores.length ∨
    threshold ≤ sAt scores (e.end_frame + 1)) ∧
  (e.start_frame = i ∨ threshold ≤ sAt scores (e.start_frame - 1)) ∧
  e.ssim_scores
    = (scores.drop e.start_frame).take (e.end_frame + 1 - e.start_frame) ∧
  (e.start_frame = e.end_frame → e.pattern = "single_glitch") ∧
  e.duration_ms = pyRound
    (((e.end_frame + 1 - e.start_frame : ℕ) : K) / (fps : K) * 1000) 1 ∧
  e.severity = severityOf (pyMin e.ssim_scores)
    (((e.end_frame + 1 - e.start_frame : ℕ) : K) / (fps : K) * 1000)

theorem classifyFrom_sound (scores : List K) (threshold : K)
    (frames : List String) (fps : ℕ) :
    ∀ n i, scores.length - i ≤ n →
      ∀ e ∈ classifyFrom scores threshold frames fps i,
        EventSpec scores threshold fps i e := by
  intro n
  induction n with
  | zero =>
    intro i hn e he
    rw [classifyFrom] at he
    rw [dif_neg (by omega)] at he
    simp at he
  | succ n ih =>
    intro i hn e he
    rw [classifyFrom] at he
    by_cases hi : i < scores.length
    · rw [dif_pos hi] at he
      by_cases hb : sAt scores i < threshold
      · rw [dif_pos hb] at he
        dsimp only at he
        have hlen1 : 1 ≤ belowRunLen scores threshold i :=
          belowRunLen_pos scores threshold i hi hb
        have hlenle : belowRunLen scores threshold i ≤ scores.length - i :=
          belowRunLen_le scores threshold i
        rcases List.mem_cons.mp he with hhead | htail
        · subst hhead
          unfold EventSpec
          dsimp only
          have hE : i + belowRunLen scores threshold i - 1 + 1
              = i + belowRunLen scores threshold i := by omega
          have hcast : ((i + belowRunLen scores threshold i - 1 + 1
                - i : ℕ) : K)
              = ((belowRunLen scores threshold i : ℕ) : K) := by
            congr 1
            omega
          have hdur : ((((i + belowRunLen scores threshold i - 1 + 1 : ℕ) : K)
                / (fps : K) - (i : K) / (fps : K)) * 1000)
              = ((i + belowRunLen scores threshold i - 1 + 1 - i : ℕ) : K)
                / (fps : K) * 1000 := by
            rw [hcast, hE]
            push_cast
            ring
          refine ⟨le_refl i, by omega, by omega, ?_, ?_, Or.inl rfl, rfl,
            ?_, ?_, ?_⟩
          · intro k hk1 hk2
            exact belowRunLen_below scores threshold i k hk1 (by omega)
          · rw [hE]
            by_cases hl : i + belowRunLen scores threshold i = scores.length
            · exact Or.inl hl
            · exact Or.inr (not_lt.mp
                (belowRunLen_stop scores threshold i (by omega)))
          · intro hse
            show (if i + belowRunLen scores threshold i - 1 - i = 0 then
              "single_glitch" else _) = "single_glitch"
            rw [if_pos (by omega)]
          · show pyRound _ 1 = pyRound _ 1
            rw [hdur]
          · show (if _ then "HIGH" else _) = severityOf _ _
            unfold severityOf
            simp only [hdur]
        · have hspec := ih (i + belowRunLen scores threshold i) (by omega)
            e htail
          obtain ⟨s1, s2, s3, s4, s5, s6, s7, s8, s9, s10⟩ := hspec
          refine ⟨by omega, s2, s3, s4, s5, ?_, s7, s8, s9, s10⟩
          rcases s6 with hstart | hleft
          · exfalso
            have hbelow : sAt scores e.start_frame < threshold :=
              s4 e.start_frame (le_refl _) s2
            by_cases hl : i + belowRunLen scores threshold i < scores.length
            · exact belowRunLen_stop scores threshold i hl (hstart ▸ hbelow)
            · omega
          · exact Or.inr hleft
      · rw [dif_neg hb] at he
        have hspec := ih (i + 1) (by omega) e he
        obtain ⟨s1, s2, s3, s4, s5, s6, s7, s8, s9, s10⟩ := hspec
        refine ⟨by omega, s2, s3, s4, s5, ?_, s7, s8, s9, s10⟩
        rcases s6 with hstart | hleft
        · right
          have : e.start_frame - 1 = i := by omega
          rw [this]
          exact not_lt.mp hb
        · exact Or.inr hleft
    · rw [dif_neg hi] at he
      simp at he

theorem classifyFrom_complete (scores : List K) (threshold : K)
    (frames : List String) (fps : ℕ) :
    ∀ n i, scores.length - i ≤ n → ∀ a b,
      IsMaximalRun scores threshold a b → i ≤ a →
      ∃ e ∈ classifyFrom scores threshold frames fps i,
        e.start_frame = a ∧ e.end_frame = b := by
  intro n
  induction n with
  | zero =>
    intro i hn a b hrun hia
    obtain ⟨hab, hbl, _, _, _⟩ := hrun
    omega
  | succ n ih =>
    intro i hn a b hrun hia
    obtain ⟨hab, hbl, hbelow, hleft, hright⟩ := hrun
    have hi : i < scores.length := by omega
    rw [classifyFrom, dif_pos hi]
    by_cases hb : sAt scores i < threshold
    · rw [dif_pos hb]
      dsimp only
      have hlen1 : 1 ≤ belowRunLen scores threshold i :=
        belowRunLen_pos scores threshold i hi hb
      have hlenle : belowRunLen scores threshold i ≤ scores.length - i :=
        belowRunLen_le scores threshold i
      by_cases hieq : i = a
      · subst hieq
        have hge : b + 1 - i ≤ belowRunLen scores threshold i := by
          by_contra hlt
          push_neg at hlt
          have hstop := belowRunLen_stop scores threshold i (by omega)
          exact hstop (hbelow _ (by omega) (by omega))
        have hle : belowRunLen scores threshold i ≤ b + 1 - i := by
          by_contra hgt
          push_neg at hgt
          have hb1 : sAt scores (b + 1) < threshold :=
            belowRunLen_below scores threshold i (b + 1) (by omega) (by omega)
          rcases hright with hE | hge'
          · omega
          · exact absurd hb1 (not_lt.mpr hge')
        refine ⟨_, List.mem_cons_self _ _, rfl, ?_⟩
        show i + belowRunLen scores threshold i - 1 = b
        omega
      · have hia' : i < a := by omega
        have hnext : i + belowRunLen scores threshold i ≤ a := by
          by_contra hgt
          push_neg at hgt
          have ham1 : sAt scores (a - 1) < threshold :=
            belowRunLen_below scores threshold i (a - 1) (by omega) (by omega)
          rcases hleft with h0 | hge'
          · omega
          · exact absurd ham1 (not_lt.mpr hge')
        obtain ⟨e, hmem, hea, heb⟩ := ih (i + belowRunLen scores threshold i)
          (by omega) a b ⟨hab, hbl, hbelow, hleft, hright⟩ hnext
        exact ⟨e, List.mem_cons_of_mem _ hmem, hea, heb⟩
    · rw [dif_neg hb]
      have hia' : i < a := by
        rcases Nat.lt_or_ge i a with h | h
        · exact h
        · have : i = a := by omega
          subst this
          exact absurd (hbelow i (le_refl i) hab) hb
      exact ih (i + 1) (by omega) a b ⟨hab, hbl, hbelow, hleft, hright⟩
        (by omega)

theorem classifyFrom_pairwise (scores : List K) (threshold : K)
    (frames : List String) (fps : ℕ) :
    ∀ n i, scores.length - i ≤ n →
      (classifyFrom scores threshold frames fps i).Pairwise
        (fun e f => e.end_frame < f.start_frame) := by
  intro n
  induction n with
  | zero =>
    intro i hn
    rw [classifyFrom, dif_neg (by omega)]
    exact List.Pairwise.nil
  | succ n ih =>
    intro i hn
    rw [classifyFrom]
    by_cases hi : i < scores.length
    · rw [dif_pos hi]
      by_cases hb : sAt scores i < threshold
      · rw [dif_pos hb]
        dsimp only
        have hlen1 : 1 ≤ belowRunLen scores threshold i :=
          belowRunLen_pos scores threshold i hi hb
        refine List.Pairwise.cons ?_ (ih _ (by omega))
        intro f hf
        have hspec := classifyFrom_sound scores threshold frames fps
          scores.length (i + belowRunLen scores threshold i) (by omega) f hf
        show i + belowRunLen scores threshold i - 1 < f.start_frame
        have := hspec.1
        omega
      · rw [dif_neg hb]
        exact ih _ (by omega)
    · rw [dif_neg hi]
      exact List.Pairwise.nil

/-! ## Claim C3 — `classify_flickers` -/

/-- C3 (amended): `classify_flickers` produces exactly one event per
maximal contiguous below-threshold run (in order, zero events when every
score is at or above threshold); a run of length 1 has pattern
`single_glitch`; the stored `duration_ms` is `(end+1-start)/fps*1000`
rounded to one decimal digit (the unrounded duration feeds the severity
rule); severity follows `severityOf` on the run's minimum score; and the
worked example yields one `single_glitch`/`MEDIUM` event. -/
theorem C3_classify_flickers_runs (scores : List ℚ) (threshold : ℚ)
    (frames : List String) (fps : ℕ) :
    (∀ a b, IsMaximalRun scores threshold a b ↔
      (a, b) ∈ (classify_flickers scores threshold frames fps).map
        fun e => (e.start_frame, e.end_frame)) ∧
    (classify_flickers scores threshold frames fps).Pairwise
      (fun e f => e.end_frame < f.start_frame) ∧
    ((∀ s ∈ scores, threshold ≤ s) →
      classify_flickers scores threshold frames fps = []) ∧
    (∀ e ∈ classify_flickers scores threshold frames fps,
      e.ssim_scores
          = (scores.drop e.start_frame).take (e.end_frame + 1 - e.start_frame) ∧
      (e.start_frame = e.end_frame → e.pattern = "single_glitch") ∧
      e.duration_ms = pyRound
        (((e.end_frame + 1 - e.start_frame : ℕ) : ℚ) / (fps : ℚ) * 1000) 1 ∧
      e.severity = severityOf (pyMin e.ssim_scores)
        (((e.end_frame + 1 - e.start_frame : ℕ) : ℚ) / (fps : ℚ) * 1000)) ∧
    (classify_flickers (K := ℚ) [98/100, 98/100, 60/100, 98/100, 98/100]
        (92/100) ["f1", "f2", "f3", "f4", "f5"] 15).map
      (fun e => (e.start_frame, e.end_frame, e.pattern, e.severity))
      = [(2, 2, "single_glitch", "MEDIUM")] := by
  refine ⟨?_, ?_, ?_, ?_, ?_⟩
  · intro a b
    constructor
    · intro hrun
      obtain ⟨e, hmem, hea, heb⟩ := classifyFrom_complete scores threshold
        frames fps scores.length 0 (by omega) a b hrun (Nat.zero_le a)
      exact List.mem_map.mpr ⟨e, hmem, by rw [hea, heb]⟩
    · intro hmem
      obtain ⟨e, hmem', heq⟩ := List.mem_map.mp hmem
      obtain ⟨_, s2, s3, s4, s5, s6, _⟩ := classifyFrom_sound scores
        threshold frames fps scores.length 0 (by omega) e hmem'
      have hea : e.start_frame = a := by
        have := congrArg Prod.fst heq
        simpa using this
      have heb : e.end_frame = b := by
        have := congrArg Prod.snd heq
        simpa using this
      subst hea
      subst heb
      exact ⟨s2, s3, s4, by simpa using s6, s5⟩
  · exact classifyFrom_pairwise scores threshold frames fps
      scores.length 0 (by omega)
  · intro hall
    cases hcl : classify_flickers scores threshold frames fps with
    | nil => rfl
    | cons e rest =>
      exfalso
      have hmem : e ∈ classify_flickers scores threshold frames fps := by
        rw [hcl]
        exact List.mem_cons_self e rest
      obtain ⟨_, s2, s3, s4, _⟩ := classifyFrom_sound scores threshold
        frames fps scores.length 0 (by omega) e hmem
      have hsl : e.start_frame < scores.length := by omega
      have hbelow := s4 e.start_frame (le_refl _) s2
      rw [sAt, List.getD_eq_getElem _ _ hsl] at hbelow
      exact absurd hbelow (not_lt.mpr (hall _ (List.getElem_mem hsl)))
  · intro e hmem
    obtain ⟨_, _, _, _, _, _, s7, s8, s9, s10⟩ := classifyFrom_sound scores
      threshold frames fps scores.length 0 (by omega) e hmem
    exact ⟨s7, s8, s9, s10⟩
  · have h5 : classifyFrom (K := ℚ) [98/100, 98/100, 60/100, 98/100, 98/100]
        (92/100) ["f1", "f2", "f3", "f4", "f5"] 15 5 = [] := by
      rw [classifyFrom, dif_neg (by norm_num)]
    have h4 : classifyFrom (K := ℚ) [98/100, 98/100, 60/100, 98/100, 98/100]
        (92/100) ["f1", "f2", "f3", "f4", "f5"] 15 4 = [] := by
      rw [classifyFrom, dif_pos (by norm_num), dif_neg (by norm_num [sAt])]
      rw [show (4 : ℕ) + 1 = 5 from rfl]
      exact h5
    have h3 : classifyFrom (K := ℚ) [98/100, 98/100, 60/100, 98/100, 98/100]
        (92/100) ["f1", "f2", "f3", "f4", "f5"] 15 3 = [] := by
      rw [classifyFrom, dif_pos (by norm_num), dif_neg (by norm_num [sAt])]
      rw [show (3 : ℕ) + 1 = 4 from rfl]
      exact h4
    have hlen : belowRunLen (K := ℚ) [98/100, 98/100, 60/100, 98/100, 98/100]
        (92/100) 2 = 1 := by
      norm_num [belowRunLen, List.takeWhile_cons]
    have h2 : (classifyFrom (K := ℚ) [98/100, 98/100, 60/100, 98/100, 98/100]
        (92/100) ["f1", "f2", "f3", "f4", "f5"] 15 2).map
        (fun e => (e.start_frame, e.end_frame, e.pattern, e.severity))
        = [(2, 2, "single_glitch", "MEDIUM")] := by
      rw [classifyFrom, dif_pos (by norm_num), dif_pos (by norm_num [sAt])]
      dsimp only
      rw [hlen]
      rw [show (2 : ℕ) + 1 = 3 from rfl, h3]
      rw [List.map_cons, List.map_nil]
      norm_num [pyMin]
    have h1 : classifyFrom (K := ℚ) [98/100, 98/100, 60/100, 98/100, 98/100]
        (92/100) ["f1", "f2", "f3", "f4", "f5"] 15 1
        = classifyFrom (K := ℚ) [98/100, 98/100, 60/100, 98/100, 98/100]
          (92/100) ["f1", "f2", "f3", "f4", "f5"] 15 2 := by
      rw [classifyFrom, dif_pos (by norm_num), dif_neg (by norm_num [sAt])]
    have h0 : classifyFrom (K := ℚ) [98/100, 98/100, 60/100, 98/100, 98/100]
        (92/100) ["f1", "f2", "f3", "f4", "f5"] 15 0
        = classifyFrom (K := ℚ) [98/100, 98/100, 60/100, 98/100, 98/100]
          (92/100) ["f1", "f2", "f3", "f4", "f5"] 15 1 := by
      rw [classifyFrom, dif_pos (by norm_num), dif_neg (by norm_num [sAt])]
    rw [classify_flickers, h0, h1, h2]

/-! ## Claim C2 — `compute_adaptive_threshold`

`numpy.median` sorts and takes the middle element (mean of the two middle
elements for even length); `numpy.std` is the square root of the
population variance.  The exact real square root forces this one function
to live on `ℝ`. -/

/-- `numpy.median`. -/
noncomputable def npMedian (l : List ℝ) : ℝ :=
  let s := l.mergeSort fun a b => decide (a ≤ b)
  if l.length % 2 = 1 then sAt s (l.length / 2)
  else (sAt s (l.length / 2 - 1) + sAt s (l.length / 2)) / 2

/-- `numpy`'s population variance `mean((x - x.mean())**2)`. -/
noncomputable def npVar (l : List ℝ) : ℝ :=
  ((l.map fun x => (x - l.sum / l.length) ^ 2).sum) / l.length

/-- `numpy.std`. -/
noncomputable def npStd (l : List ℝ) : ℝ := Real.sqrt (npVar l)

/-- `FrameAnalyzer.compute_adaptive_threshold` (layer2_analysis.py lines
208–220). -/
noncomputable def compute_adaptive_threshold (scores : List ℝ) : ℝ :=
  if scores.length < 10 then 0.92
  else max 0.70 (npMedian scores - 2 * npStd scores)

/-- The maximally noisy alternating score list `0.1, 0.9, 0.1, …` of
length `n`. -/
noncomputable def altList (n : ℕ) : List ℝ :=
  (List.range n).map fun i => if i % 2 = 0 then 1/10 else 9/10

theorem npMedian_le (l : List ℝ) (c : ℝ) (hne : l ≠ [])
    (h : ∀ x ∈ l, x ≤ c) : npMedian l ≤ c := by
  unfold npMedian
  have hlen : (l.mergeSort fun a b => decide (a ≤ b)).length = l.length :=
    List.length_mergeSort l
  have hmem : ∀ x ∈ l.mergeSort fun a b => decide (a ≤ b), x ≤ c :=
    fun x hx => h x ((List.mergeSort_perm l _).mem_iff.mp hx)
  have hl0 : 0 < l.length := List.length_pos.mpr hne
  by_cases hpar : l.length % 2 = 1
  · rw [if_pos hpar]
    have hidx : l.length / 2 < (l.mergeSort fun a b => decide (a ≤ b)).length := by
      rw [hlen]; omega
    rw [sAt, List.getD_eq_getElem _ _ hidx]
    exact hmem _ (List.getElem_mem hidx)
  · rw [if_neg hpar]
    have hidx1 : l.length / 2 - 1
        < (l.mergeSort fun a b => decide (a ≤ b)).length := by
      rw [hlen]; omega
    have hidx2 : l.length / 2
        < (l.mergeSort fun a b => decide (a ≤ b)).length := by
      rw [hlen]; omega
    rw [sAt, sAt, List.getD_eq_getElem _ _ hidx1, List.getD_eq_getElem _ _ hidx2]
    have h1 := hmem _ (List.getElem_mem hidx1)
    have h2 := hmem _ (List.getElem_mem hidx2)
    linarith

theorem sum_map_sub_sq (l : List ℝ) (m : ℝ) :
    (l.map fun x => (x - m) ^ 2).sum
      = (l.map fun x => x ^ 2).sum - 2 * m * l.sum + l.length * m ^ 2 := by
  induction l with
  | nil => simp
  | cons x xs ih =>
    simp only [List.map_cons, List.sum_cons, ih, List.length_cons]
    push_cast
    ring

theorem altList_length (n : ℕ) : (altList n).length = n := by
  simp [altList]

theorem altList_sum (n : ℕ) :
    (altList n).sum = ((n - n / 2 : ℕ) : ℝ) / 10 + 9 * ((n / 2 : ℕ) : ℝ) / 10 := by
  induction n with
  | zero => simp [altList]
  | succ n ih =>
    have hstep : altList (n + 1) = altList n ++ [if n % 2 = 0 then (1:ℝ)/10 else 9/10] := by
      unfold altList
      rw [List.range_succ, List.map_append]
      rfl
    rw [hstep, List.sum_append, ih]
    rcases Nat.even_or_odd n with he | ho
    · have hmod : n % 2 = 0 := Nat.even_iff.mp he
      rw [if_pos hmod]
      have e1 : (n + 1) / 2 = n / 2 := by omega
      have e2 : (n + 1) - (n + 1) / 2 = (n - n / 2) + 1 := by omega
      rw [e2, e1]
      simp only [List.sum_cons, List.sum_nil, List.map_cons, List.map_nil]
      push_cast
      ring
    · have hmod : ¬ n % 2 = 0 := by
        have := Nat.odd_iff.mp ho
        omega
      rw [if_neg hmod]
      have e1 : (n + 1) / 2 = n / 2 + 1 := by omega
      have e2 : (n + 1) - (n + 1) / 2 = n - n / 2 := by omega
      rw [e2, e1]
      simp only [List.sum_cons, List.sum_nil, List.map_cons, List.map_nil]
      push_cast
      ring

theorem altList_sumsq (n : ℕ) :
    ((altList n).map fun x => x ^ 2).sum
      = ((n - n / 2 : ℕ) : ℝ) / 100 + 81 * ((n / 2 : ℕ) : ℝ) / 100 := by
  induction n with
  | zero => simp [altList]
  | succ n ih =>
    have hstep : altList (n + 1) = altList n ++ [if n % 2 = 0 then (1:ℝ)/10 else 9/10] := by
      unfold altList
      rw [List.range_succ, List.map_append]
      rfl
    rw [hstep, List.map_append, List.sum_append, ih]
    rcases Nat.even_or_odd n with he | ho
    · have hmod : n % 2 = 0 := Nat.even_iff.mp he
      rw [if_pos hmod]
      have e1 : (n + 1) / 2 = n / 2 := by omega
      have e2 : (n + 1) - (n + 1) / 2 = (n - n / 2) + 1 := by omega
      rw [e2, e1]
      simp only [List.sum_cons, List.sum_nil, List.map_cons, List.map_nil]
      push_cast
      ring
    · have hmod : ¬ n % 2 = 0 := by
        have := Nat.odd_iff.mp ho
        omega
      rw [if_neg hmod]
      have e1 : (n + 1) / 2 = n / 2 + 1 := by omega
      have e2 : (n + 1) - (n + 1) / 2 = n - n / 2 := by omega
      rw [e2, e1]
      simp only [List.sum_cons, List.sum_nil, List.map_cons, List.map_nil]
      push_cast
      ring

theorem altList_var_ge (n : ℕ) (hn : 10 ≤ n) :
    (1 : ℝ) / 100 ≤ npVar (altList n) := by
  have hb5 : 5 ≤ n / 2 := by omega
  have hab : n - n / 2 = n / 2 ∨ n - n / 2 = n / 2 + 1 := by omega
  set A : ℝ := ((n - n / 2 : ℕ) : ℝ) with hA
  set B : ℝ := ((n / 2 : ℕ) : ℝ) with hB
  have hB5 : (5 : ℝ) ≤ B := by rw [hB]; exact_mod_cast hb5
  have hA0 : (0 : ℝ) ≤ A := by positivity
  have hABr : A = B ∨ A = B + 1 := by
    rcases hab with h | h
    · left; rw [hA, hB, h]
    · right; rw [hA, hB, h]; push_cast; ring
  have hN : ((altList n).length : ℝ) = A + B := by
    have h' : (n - n / 2) + n / 2 = n := by omega
    calc ((altList n).length : ℝ) = (n : ℝ) := by rw [altList_length]
      _ = (((n - n / 2) + n / 2 : ℕ) : ℝ) :=
          congrArg (fun m : ℕ => (m : ℝ)) h'.symm
      _ = A + B := by rw [hA, hB]; push_cast; ring
  have hNpos : (0 : ℝ) < A + B := by linarith
  have hval : npVar (altList n) = (64 * A * B / 100) / (A + B) ^ 2 := by
    unfold npVar
    rw [sum_map_sub_sq, altList_sum n, altList_sumsq n, hN]
    rw [← hA, ← hB]
    field_simp
    ring
  rw [hval]
  rw [div_le_div_iff (by norm_num) (by positivity)]
  have hsq : (A + B) ^ 2 ≤ 64 * A * B := by
    rcases hABr with h | h
    · rw [h]; nlinarith
    · rw [h]; nlinarith
  nlinarith

/-- C2: `compute_adaptive_threshold` is exactly `0.92` for fewer than 10
scores, exactly `max(0.70, median - 2*std)` for at least 10, and exactly
`0.70` on every alternating `0.1/0.9` list of length at least 10. -/
theorem C2_adaptive_threshold :
    (∀ scores : List ℝ, scores.length < 10 →
      compute_adaptive_threshold scores = 0.92) ∧
    (∀ scores : List ℝ, 10 ≤ scores.length →
      compute_adaptive_threshold scores
        = max 0.70 (npMedian scores - 2 * Real.sqrt (npVar scores))) ∧
    (∀ n : ℕ, 10 ≤ n → compute_adaptive_threshold (altList n) = 0.70) := by
  refine ⟨?_, ?_, ?_⟩
  · intro scores h
    unfold compute_adaptive_threshold
    rw [if_pos h]
  · intro scores h
    unfold compute_adaptive_threshold npStd
    rw [if_neg (not_lt.mpr h)]
  · intro n hn
    have hlen := altList_length n
    have hne : altList n ≠ [] := by
      intro hc
      rw [hc] at hlen
      simp at hlen
      omega
    unfold compute_adaptive_threshold
    rw [if_neg (by rw [hlen]; omega)]
    rw [max_eq_left]
    have hmed : npMedian (altList n) ≤ 9 / 10 := by
      apply npMedian_le _ _ hne
      intro x hx
      unfold altList at hx
      obtain ⟨i, _, rfl⟩ := List.mem_map.mp hx
      split <;> norm_num
    have hstd : (1 : ℝ) / 10 ≤ npStd (altList n) := by
      unfold npStd
      rw [show (1 : ℝ) / 10 = Real.sqrt (1 / 100) by
        rw [show (1 : ℝ) / 100 = (1 / 10) ^ 2 by norm_num,
          Real.sqrt_sq (by norm_num)]]
      exact Real.sqrt_le_sqrt (altList_var_ge n hn)
    unfold npStd at hstd ⊢
    norm_num
    linarith [hstd, hmed]

/-- Witness for C2 at a short list and at the alternating list of
length 10. -/
theorem C2_adaptive_threshold_witness :
    compute_adaptive_threshold [1/2, 3/4] = 0.92 ∧
    compute_adaptive_threshold (altList 10) = 0.70 :=
  ⟨C2_adaptive_threshold.1 [1/2, 3/4] (by norm_num),
   C2_adaptive_threshold.2.2 10 (by norm_num)⟩

/-- Witness for C3: the zero-event guarantee applied at a concrete
all-above-threshold list, plus the worked example. -/
theorem C3_classify_flickers_runs_witness :
    classify_flickers (K := ℚ) [98/100, 99/100] (92/100)
      ["f1", "f2", "f3"] 15 = [] ∧
    (classify_flickers (K := ℚ) [98/100, 98/100, 60/100, 98/100, 98/100]
        (92/100) ["f1", "f2", "f3", "f4", "f5"] 15).map
      (fun e => (e.start_frame, e.end_frame, e.pattern, e.severity))
      = [(2, 2, "single_glitch", "MEDIUM")] := by
  constructor
  · apply (C3_classify_flickers_runs [98/100, 99/100] (92/100)
      ["f1", "f2", "f3"] 15).2.2.1
    intro s hs
    rcases List.mem_cons.mp hs with rfl | hs
    · norm_num
    · rcases List.mem_cons.mp hs with rfl | hs
      · norm_num
      · simp at hs
  · exact (C3_classify_flickers_runs [] 0 [] 0).2.2.2.2

/-- C3 counterexample: the stored `duration_ms` is rounded to one decimal
digit, so at `fps = 15` a single-frame run stores `66.7`, not the claimed
exact `(end+1-start)/fps*1000 = 200/3 = 66.66…`. -/
theorem C3_duration_rounding_counterexample :
    ∃ e ∈ classify_flickers (K := ℚ) [1/2] (9/10) ["f1", "f2"] 15,
      e.duration_ms
        ≠ ((e.end_frame + 1 - e.start_frame : ℕ) : ℚ) / (15 : ℚ) * 1000 := by
  have hlen : belowRunLen (K := ℚ) [1/2] (9/10) 0 = 1 := by
    norm_num [belowRunLen, List.takeWhile_cons]
  have h1 : classifyFrom (K := ℚ) [1/2] (9/10) ["f1", "f2"] 15 1 = [] := by
    rw [classifyFrom, dif_neg (by norm_num)]
  have hpr : pyRound ((200 : ℚ) / 3) 1 = 667 / 10 := by
    unfold pyRound roundHalfEven
    have hfl : ⌊(200 : ℚ) / 3 * 10 ^ 1⌋ = 666 := by
      rw [Int.floor_eq_iff]
      norm_num
    rw [hfl]
    norm_num
  rw [classify_flickers, classifyFrom, dif_pos (by norm_num),
    dif_pos (by norm_num [sAt])]
  dsimp only
  rw [hlen]
  rw [show (0 : ℕ) + 1 = 1 from rfl, h1]
  refine ⟨_, List.mem_cons_self _ _, ?_⟩
  dsimp only
  norm_num [hpr]

/-- Witness for C4: three frames, pool size 1, workers finishing in
reverse order; the unreadable-image environment scores every pair `1`. -/
theorem C4_parallel_ssim_order_witness :
    (compute_ssim_parallel (K := ℚ) (fun _ => none) (fun _ _ _ _ _ => 0)
        ["f1", "f2", "f3"] 1 8 [1, 0]).length = 2 ∧
    (compute_ssim_parallel (K := ℚ) (fun _ => none) (fun _ _ _ _ _ => 0)
        ["f1", "f2", "f3"] 1 8 [1, 0])[0]? = some 1 ∧
    (compute_ssim_parallel (K := ℚ) (fun _ => none) (fun _ _ _ _ _ => 0)
        ["f1", "f2", "f3"] 1 8 [1, 0])[1]? = some 1 := by
  have h := (C4_parallel_ssim_order (K := ℚ) (fun _ => none)
    (fun _ _ _ _ _ => 0) ["f1", "f2", "f3"] 1 8 [1, 0]).2
    (by norm_num) (le_refl 1) (by norm_num)
    (by
      have : List.range (["f1", "f2", "f3"].length - 1) = [0, 1] := by rfl
      rw [this]
      exact List.Perm.swap 0 1 [])
  have hone : ∀ a b : String,
      pyRound (compute_ssim_pair (K := ℚ) (fun _ => none)
        (fun _ _ _ _ _ => 0) (a, b, 8)) 6 = 1 := by
    intro a b
    have h1 : compute_ssim_pair (K := ℚ) (fun _ => none)
        (fun _ _ _ _ _ => 0) (a, b, 8) = 1 := rfl
    rw [h1]
    exact pyRound_eq_self (10 ^ 6) (by norm_num)
  refine ⟨by simpa using h.1, ?_, ?_⟩
  · rw [h.2 0 (by norm_num)]
    rw [hone]
  · rw [h.2 1 (by norm_num)]
    rw [hone]

/-- Witness for C9 at a two-line captured log. -/
theorem C9_logcat_offsets_witness :
    ∃ m₀ : ℤ,
      (LogcatEntry.mk (some 5000) 0 "Choreographer" "I" "a").timestamp
          = some m₀ ∧
        ∀ e' ∈ [LogcatEntry.mk (some 5000) 0 "Choreographer" "I" "a",
            LogcatEntry.mk (some 6500) (3/2) "SurfaceFlinger" "W" "b"],
          ∃ m : ℤ, e'.timestamp = some m ∧
            e'.seconds_since_start = ((m - m₀ : ℤ) : ℚ) / 1000 := by
  have hentries : capture_logcat_entries
      [LogLine.matched (some 5000) "I" "Choreographer" "a",
       LogLine.matched (some 6500) "W" "SurfaceFlinger" "b"]
      = [LogcatEntry.mk (some 5000) 0 "Choreographer" "I" "a",
         LogcatEntry.mk (some 6500) (3/2) "SurfaceFlinger" "W" "b"] := by
    unfold capture_logcat_entries
    rw [logcatProcess]
    rw [if_pos (by decide)]
    rw [logcatProcess]
    rw [if_pos (by decide)]
    rw [logcatProcess]
    have hv : pyRound (((6500 - 5000 : ℤ) : ℚ) / 1000) 3 = 3/2 := by
      rw [pyRound_eq_self (K := ℚ) 1500 (by norm_num)]
      norm_num
    rw [hv]
  have h := C9_logcat_offsets.2
    [LogLine.matched (some 5000) "I" "Choreographer" "a",
     LogLine.matched (some 6500) "W" "SurfaceFlinger" "b"]
    (by
      intro l hl
      rcases List.mem_cons.mp hl with rfl | hl
      · simp [LogLine.tsValid]
      · rcases List.mem_cons.mp hl with rfl | hl
        · simp [LogLine.tsValid]
        · simp at hl)
    (LogcatEntry.mk (some 5000) 0 "Choreographer" "I" "a")
    [LogcatEntry.mk (some 6500) (3/2) "SurfaceFlinger" "W" "b"]
    hentries
  exact h

/-! ## Claim C10 — failed loads score `1.0` and never contribute events -/

/-- C10: a load failure of either frame, or resized images yielding no
complete block, makes `_compute_ssim_pair` return `1.0`; every index
covered by a classified event scores strictly below the threshold (so a
score of `1.0` is never inside an event once the threshold is at most
`1`); and the adaptive threshold is at most `1` whenever all scores are. -/
theorem C10_failed_load_never_flickers :
    (∀ (env : ImgEnv ℚ) (rf : ResizeFn ℚ) (pa pb : String) (bs : ℕ),
      env pa = none ∨ env pb = none →
      compute_ssim_pair env rf (pa, pb, bs) = 1) ∧
    (∀ (env : ImgEnv ℚ) (rf : ResizeFn ℚ) (pa pb : String) (bs : ℕ)
      (ia ib : Img ℚ), env pa = some ia → env pb = some ib →
      ¬ ia.width = 0 →
      blockScores (⟨360, ia.height * 360 / ia.width,
          rf ia 360 (ia.height * 360 / ia.width)⟩ : Img ℚ)
        (⟨360, ia.height * 360 / ia.width,
          rf ib 360 (ia.height * 360 / ia.width)⟩ : Img ℚ) bs = [] →
      compute_ssim_pair env rf (pa, pb, bs) = 1) ∧
    (∀ (scores : List ℚ) (threshold : ℚ) (frames : List String) (fps : ℕ),
      ∀ e ∈ classify_flickers scores threshold frames fps,
      ∀ k, e.start_frame ≤ k → k ≤ e.end_frame →
        sAt scores k < threshold) ∧
    (∀ scores : List ℝ, (∀ x ∈ scores, x ≤ 1) →
      compute_adaptive_threshold scores ≤ 1) := by
  refine ⟨?_, ?_, ?_, ?_⟩
  · intro env rf pa pb bs h
    rcases h with hpa | hpb
    · cases hpb : env pb with
      | none => simp only [compute_ssim_pair, hpa, hpb]
      | some ib => simp only [compute_ssim_pair, hpa, hpb]
    · cases hpa : env pa with
      | none => simp only [compute_ssim_pair, hpa, hpb]
      | some ia => simp only [compute_ssim_pair, hpa, hpb]
  · intro env rf pa pb bs ia ib hpa hpb hw hbs
    simp only [compute_ssim_pair, hpa, hpb]
    rw [if_neg hw]
    rw [hbs]
    rfl
  · intro scores threshold frames fps e he k hk1 hk2
    obtain ⟨_, _, _, s4, _⟩ := classifyFrom_sound scores threshold frames
      fps scores.length 0 (by omega) e he
    exact s4 k hk1 hk2
  · intro scores hle
    unfold compute_adaptive_threshold
    by_cases hlen : scores.length < 10
    · rw [if_pos hlen]
      norm_num
    · rw [if_neg hlen]
      have hne : scores ≠ [] := by
        intro hc
        rw [hc] at hlen
        simp at hlen
      have hmed : npMedian scores ≤ 1 := npMedian_le scores 1 hne hle
      have hsqrt : 0 ≤ Real.sqrt (npVar scores) := Real.sqrt_nonneg _
      unfold npStd
      apply max_le (by norm_num)
      linarith

/-- Witness for C10: an unreadable frame pair, a zero-height frame pair,
a concrete event index, and the alternating list's threshold. -/
theorem C10_failed_load_never_flickers_witness :
    compute_ssim_pair (K := ℚ) (fun _ => none) (fun _ _ _ _ _ => 0)
      ("a.jpg", "b.jpg", 8) = 1 ∧
    compute_ssim_pair (K := ℚ) (fun _ => some ⟨360, 0, fun _ _ => 0⟩)
      (fun _ _ _ _ _ => 0) ("a.jpg", "b.jpg", 8) = 1 ∧
    sAt (K := ℚ) [0] 0 < 1 ∧
    compute_adaptive_threshold (altList 10) ≤ 1 := by
  refine ⟨?_, ?_, ?_, ?_⟩
  · exact C10_failed_load_never_flickers.1 (fun _ => none)
      (fun _ _ _ _ _ => 0) "a.jpg" "b.jpg" 8 (Or.inl rfl)
  · exact C10_failed_load_never_flickers.2.1
      (fun _ => some ⟨360, 0, fun _ _ => 0⟩) (fun _ _ _ _ _ => 0)
      "a.jpg" "b.jpg" 8 ⟨360, 0, fun _ _ => 0⟩ ⟨360, 0, fun _ _ => 0⟩
      rfl rfl (by norm_num) (by decide)
  · obtain ⟨e, hmem, hs, hend⟩ := classifyFrom_complete (K := ℚ) [0] 1
      ["f1"] 15 1 0 (by norm_num) 0 0
      ⟨le_refl 0, by norm_num, by intro k h1 h2; interval_cases k; norm_num [sAt],
        Or.inl rfl, Or.inl (by norm_num)⟩ (le_refl 0)
    exact C10_failed_load_never_flickers.2.2.1 [0] 1 ["f1"] 15 e hmem 0
      (by omega) (by omega)
  · apply C10_failed_load_never_flickers.2.2.2 (altList 10)
    intro x hx
    unfold altList at hx
    obtain ⟨i, _, rfl⟩ := List.mem_map.mp hx
    split <;> norm_num

/-! ## Layer 3 — `layer3_semantic.py`

`SemanticVerifier.verify_event`: the vision endpoint is an environment
`post url images` returning either a transport/parse failure (any
exception inside the `try` block) or an HTTP response with status and the
extracted analysis text (`data.get("analysis", data.get("text", …))` is
abstracted to that text; base64 encoding is a bijective transport coding
and is elided).  The result is paired with the number of network calls
made. -/
inductive NetResult where
  | failure
  | response (status : ℕ) (analysis : String)
deriving Repr, DecidableEq

/-- `SemanticVerifier.verify_event` (layer3_semantic.py lines 25–73).
`fileRead` models `open(path, "rb").read()` (`none` = `IOError`, caught by
the `except` clause before any network call). -/
def verify_event (api_url : Option String)
    (fileRead : String → Option String)
    (post : String → List String → NetResult)
    (event : FlickerEvent K) : Option String × ℕ :=
  match api_url with
  | none => (none, 0)
  | some url =>
    -- `if not self.api_url:` — the empty string is falsy in Python
    if url = "" then (none, 0)
    else if ¬ (event.severity = "HIGH" ∨ event.severity = "MEDIUM") then
      (none, 0)
    else if event.frame_paths.length < 2 then (none, 0)
    else
      let reads := (event.frame_paths.take 4).map fileRead
      if reads.any (fun r => r.isNone) then (none, 0)
      else
        match post url (reads.filterMap id) with
        | .failure => (none, 1)
        | .response status analysis =>
          if status = 200 then (some analysis, 1) else (none, 1)

/-- C7: `verify_event` returns no verdict and makes no network call
unless an endpoint is configured, the severity is HIGH or MEDIUM and at
least 2 frame references exist; if it did make a call, those gates all
held; and whenever the endpoint fails or answers non-200 the result is
`none` (never an exception — the model is total). -/
theorem C7_verify_event_gating (api_url : Option String)
    (fileRead : String → Option String)
    (post : String → List String → NetResult) (event : FlickerEvent K) :
    ((api_url = none ∨ api_url = some "" ∨
      ¬ (event.severity = "HIGH" ∨ event.severity = "MEDIUM") ∨
      event.frame_paths.length < 2) →
      verify_event api_url fileRead post event = (none, 0)) ∧
    ((verify_event api_url fileRead post event).2 ≠ 0 →
      (∃ url, api_url = some url ∧ url ≠ "") ∧
      (event.severity = "HIGH" ∨ event.severity = "MEDIUM") ∧
      2 ≤ event.frame_paths.length) ∧
    (∀ url, api_url = some url →
      (post url (((event.frame_paths.take 4).map fileRead).filterMap id)
          = .failure ∨
        ∃ s a, post url (((event.frame_paths.take 4).map fileRead).filterMap id)
          = .response s a ∧ s ≠ 200) →
      (verify_event api_url fileRead post event).1 = none) := by
  refine ⟨?_, ?_, ?_⟩
  · intro h
    match api_url with
    | none => rfl
    | some url =>
      unfold verify_event
      dsimp only
      rcases h with h | h | h | h
      · exact Option.noConfusion h
      · rw [if_pos (by injection h)]
      · by_cases hurl : url = ""
        · rw [if_pos hurl]
        · rw [if_neg hurl, if_pos h]
      · by_cases hurl : url = ""
        · rw [if_pos hurl]
        · rw [if_neg hurl]
          by_cases hsev : ¬ (event.severity = "HIGH" ∨ event.severity = "MEDIUM")
          · rw [if_pos hsev]
          · rw [if_neg hsev, if_pos h]
  · intro h
    match hurl : api_url with
    | none => exact absurd (by rw [verify_event]) h
    | some url =>
      unfold verify_event at h
      dsimp only at h
      by_cases h1 : url = ""
      · rw [if_pos h1] at h
        exact absurd rfl h
      · rw [if_neg h1] at h
        by_cases h2 : ¬ (event.severity = "HIGH" ∨ event.severity = "MEDIUM")
        · rw [if_pos h2] at h
          exact absurd rfl h
        · rw [if_neg h2] at h
          by_cases h3 : event.frame_paths.length < 2
          · rw [if_pos h3] at h
            exact absurd rfl h
          · exact ⟨⟨url, rfl, h1⟩, not_not.mp h2, not_lt.mp h3⟩
  · intro url hurl hpost
    subst hurl
    suffices h : ∃ c, verify_event (some url) fileRead post event
        = ((none : Option String), c) by
      obtain ⟨c, hc⟩ := h
      rw [hc]
    show ∃ c, (if url = "" then ((none : Option String), 0)
      else if ¬ (event.severity = "HIGH" ∨ event.severity = "MEDIUM") then
        ((none : Option String), 0)
      else if event.frame_paths.length < 2 then ((none : Option String), 0)
      else if (((event.frame_paths.take 4).map fileRead).any
          fun r => r.isNone) then ((none : Option String), 0)
      else
        match post url (((event.frame_paths.take 4).map fileRead).filterMap id) with
        | .failure => ((none : Option String), 1)
        | .response status analysis =>
          if status = 200 then (some analysis, 1)
          else ((none : Option String), 1)) = ((none : Option String), c)
    by_cases h1 : url = ""
    · rw [if_pos h1]
      exact ⟨0, rfl⟩
    · rw [if_neg h1]
      by_cases h2 : ¬ (event.severity = "HIGH" ∨ event.severity = "MEDIUM")
      · rw [if_pos h2]
        exact ⟨0, rfl⟩
      · rw [if_neg h2]
        by_cases h3 : event.frame_paths.length < 2
        · rw [if_pos h3]
          exact ⟨0, rfl⟩
        · rw [if_neg h3]
          by_cases h4 : ((event.frame_paths.take 4).map fileRead).any
              (fun r => r.isNone)
          · rw [if_pos h4]
            exact ⟨0, rfl⟩
          · rw [if_neg h4]
            rcases hpost with hfail | ⟨s, a, hresp, hs⟩
            · rw [hfail]
              exact ⟨1, rfl⟩
            · rw [hresp]
              refine ⟨1, ?_⟩
              show (if s = 200 then (some a, 1)
                else ((none : Option String), 1)) = ((none : Option String), 1)
              rw [if_neg hs]

/-- Witness for C7: no URL configured (no call), a failing endpoint
(non-200 gives no verdict), and the gate conclusion at a HIGH event with
two frames. -/
theorem C7_verify_event_gating_witness :
    verify_event (K := ℚ) none (fun _ => some "x")
      (fun _ _ => NetResult.response 200 "ok")
      ⟨0, 1, 0, 0, 0, "sustained_change", [], "HIGH", ["fa", "fb"]⟩
      = (none, 0) ∧
    (verify_event (K := ℚ) (some "v") (fun _ => some "x")
      (fun _ _ => NetResult.response 500 "err")
      ⟨0, 1, 0, 0, 0, "sustained_change", [], "HIGH", ["fa", "fb"]⟩).1
      = none ∧
    2 ≤ (FlickerEvent.mk (K := ℚ) 0 1 0 0 0 "sustained_change" [] "HIGH"
      ["fa", "fb"]).frame_paths.length := by
  refine ⟨?_, ?_, ?_⟩
  · exact (C7_verify_event_gating none (fun _ => some "x")
      (fun _ _ => NetResult.response 200 "ok") _).1 (Or.inl rfl)
  · exact (C7_verify_event_gating (some "v") (fun _ => some "x")
      (fun _ _ => NetResult.response 500 "err") _).2.2 "v" rfl
      (Or.inr ⟨500, "err", rfl, by norm_num⟩)
  · exact ((C7_verify_event_gating (some "v") (fun _ => some "x")
      (fun _ _ => NetResult.response 200 "ok")
      (FlickerEvent.mk (K := ℚ) 0 1 0 0 0 "sustained_change" [] "HIGH"
        ["fa", "fb"])).2.1 (by decide)).2.2

/-! ## `compute_region_diff` and `correlate_with_logcat` -/

/-- The dict returned by `FrameAnalyzer.compute_region_diff`
(layer2_analysis.py lines 312–343); `none` models the `{"error": …}`
dict produced by the `except` clause. -/
structure RegionDiff (K : Type) where
  grid_size : ℕ
  regions : List (String × K)
  max_change_region : String
  max_change_value : K
  mean_change : K

/-- `FrameAnalyzer.compute_region_diff`: resize both frames to 360×360,
mean absolute luminance difference per `grid × grid` cell; `max(regions,
key=regions.get)` keeps the first maximal cell. -/
def compute_region_diff (env : ImgEnv K) (rf : ResizeFn K)
    (pa pb : String) (grid : ℕ) : Option (RegionDiff K) :=
  match env pa, env pb with
  | some ia, some ib =>
    let fa := rf ia 360 360
    let fb := rf ib 360 360
    let cell := 360 / grid
    let regions := (List.range grid).flatMap fun r =>
      (List.range grid).map fun c =>
        ("r" ++ toString r ++ "_c" ++ toString c,
          pyRound ((∑ p ∈ Finset.range cell ×ˢ Finset.range cell,
            |fa (r * cell + p.1) (c * cell + p.2)
              - fb (r * cell + p.1) (c * cell + p.2)|)
            / ((cell * cell : ℕ) : K)) 2)
    match regions with
    | [] => none
    | r0 :: rest =>
      let best := rest.foldl (fun best p => if best.2 < p.2 then p else best) r0
      some { grid_size := grid, regions := regions,
             max_change_region := best.1, max_change_value := best.2,
             mean_change := pyRound ((∑ p ∈ Finset.range 360 ×ˢ Finset.range 360,
               |fa p.1 p.2 - fb p.1 p.2|) / ((360 * 360 : ℕ) : K)) 2 }
  | _, _ => none

/-- A classified event together with the mutable enrichment fields the
later pipeline stages fill in (`event.logcat_events`,
`event.gpt_analysis`, `event.region_diff` in `services/models.py`). -/
structure EnrichedEvent where
  event : FlickerEvent ℝ
  logcat_events : List LogcatEntry := []
  gpt_analysis : Option String := none
  region_diff : Option (RegionDiff ℝ) := none

/-- `FrameAnalyzer.correlate_with_logcat` (layer2_analysis.py lines
345–364): attach the logcat entries whose offset falls within
`[start_time - window, end_time + window]`, capped at 20 per event (the
source stores trimmed dicts; the model keeps the entries). -/
noncomputable def correlate_with_logcat (events : List EnrichedEvent)
    (logcat_entries : List LogcatEntry) (window_s : ℝ) :
    List EnrichedEvent :=
  events.map fun ee =>
    { ee with logcat_events :=
        (logcat_entries.filter fun en =>
          decide (ee.event.start_time - window_s
              ≤ ((en.seconds_since_start : ℚ) : ℝ)) &&
          decide (((en.seconds_since_start : ℚ) : ℝ)
              ≤ ee.event.end_time + window_s)).take 20 }

/-! ## Detection orchestrator — `detection_pipeline.py` -/

/-- `ScreenRecorder.record`'s outcome as `run_detection` reads it:
`recording_result.get("error")` truthy with a `message`, or a
`video_path`. -/
inductive RecordingResult where
  | failure (message : String)
  | success (video_path : String)
deriving Repr, DecidableEq

/-- The external world one detection session interacts with.
`exception` models an exception raised anywhere inside the big `try`
block after the recording check (caught at detection_pipeline.py line
189); `schedule` is the worker pool's completion order; `analysisSeconds`
is the wall-clock measurement (stored rounded to 2 digits). -/
structure DetectionEnv where
  session_id : String
  exception : Option String
  recording : RecordingResult
  statsBefore : SurfaceStats
  statsAfter : SurfaceStats
  deviceInfo : String
  logLines : List LogLine
  framePaths : List String
  imgEnv : ImgEnv ℝ
  rf : ResizeFn ℝ
  schedule : List ℕ
  fileRead : String → Option String
  post : String → List String → NetResult
  comparisonRender : ℕ → Bool
  analysisSeconds : ℝ

/-- `services/models.py` `FlickerReport` (the `surface_stats` dict is
split into its before/after/device_info parts; `logcat_summary` into its
two entries). -/
structure FlickerReport where
  session_id : String
  device_id : String
  recording_duration : ℕ
  video_path : String := ""
  frames_dir : String := ""
  total_frames_analyzed : ℕ := 0
  total_scene_frames : ℕ := 0
  total_flickers_detected : ℕ := 0
  analysis_time_seconds : ℝ := 0
  ssim_scores : List ℝ := []
  adaptive_threshold : ℝ := 0.92
  ssim_timeline_path : String := ""
  surface_stats_before : Option SurfaceStats := none
  surface_stats_after : Option SurfaceStats := none
  device_info : String := ""
  surface_delta : Option SurfaceStatsDelta := none
  flicker_events : List EnrichedEvent := []
  logcat_summary_total : ℕ := 0
  logcat_summary_tags : List String := []
  comparison_images : List String := []
  error : String := ""

/-- `f"comparison_{i:02d}.jpg"`'s zero-padded index. -/
def pad2 (i : ℕ) : String :=
  if i < 10 then "0" ++ toString i else toString i

/-- `run_detection` (detection_pipeline.py lines 25–211).  The returned
number counts executions of the report-saving block at lines 195–199
(`json.dump(report.model_dump(), f)`), i.e. how many times the session's
`report.json` is written.  `events[:10]` drives the comparison images;
`gpt_verify and vision_api_url` gates Layer 3 (Python truthiness: an
empty URL string is falsy, and an empty `analysis` string is not stored). -/
noncomputable def run_detection (duration fps : ℕ)
    (use_gpt_verify cleanup_frames : Bool) (vision_api_url : Option String)
    (env : DetectionEnv) : FlickerReport × ℕ :=
  let session_dir := "/tmp/flicker_detection/" ++ env.session_id
  let frames_dir := session_dir ++ "/frames"
  let report : FlickerReport :=
    { session_id := env.session_id, device_id := "default",
      recording_duration := duration, frames_dir := frames_dir }
  match env.exception with
  | some msg =>
    -- the `except Exception` handler (lines 189–191) records the error,
    -- then control falls through to the save block: one persist
    ({ report with
        error := msg,
        analysis_time_seconds := pyRound env.analysisSeconds 2 }, 1)
  | none =>
    let report := { report with
      surface_stats_before := some env.statsBefore,
      device_info := env.deviceInfo }
    match env.recording with
    | .failure msg =>
      -- `report.error = …; return report` (lines 107–109): this early
      -- return leaves the function before the save block — NO persist
      ({ report with error := msg }, 0)
    | .success video_path =>
      let report := { report with
        video_path := video_path,
        surface_stats_after := some env.statsAfter,
        surface_delta := some (compute_delta env.statsBefore env.statsAfter) }
      let logcat_entries := capture_logcat_entries env.logLines
      let report := { report with
        logcat_summary_total := logcat_entries.length,
        logcat_summary_tags := (logcat_entries.map LogcatEntry.tag).eraseDups }
      let frame_paths := env.framePaths
      let report := { report with
        total_frames_analyzed := frame_paths.length,
        total_scene_frames := frame_paths.length }
      if 2 ≤ frame_paths.length then
        let ssim_scores := compute_ssim_parallel env.imgEnv env.rf
          frame_paths 4 8 env.schedule
        let threshold := compute_adaptive_threshold ssim_scores
        let events := classify_flickers ssim_scores threshold frame_paths fps
        let enriched := events.map fun e => ({ event := e } : EnrichedEvent)
        let enriched := correlate_with_logcat enriched logcat_entries (1/2)
        let enriched := enriched.map fun ee =>
          if 2 ≤ ee.event.frame_paths.length then
            { ee with region_diff := (compute_region_diff env.imgEnv env.rf
                (ee.event.frame_paths.getD 0 "")
                (ee.event.frame_paths.getD 1 "") 4) }
          else ee
        let enriched :=
          if use_gpt_verify then
            match vision_api_url with
            | some u =>
              if u = "" then enriched
              else enriched.map fun ee =>
                match (verify_event (some u) env.fileRead env.post
                    ee.event).1 with
                | some a =>
                  if a = "" then ee else { ee with gpt_analysis := some a }
                | none => ee
            | none => enriched
          else enriched
        let report := { report with
          ssim_scores := ssim_scores,
          adaptive_threshold := threshold,
          flicker_events := enriched,
          total_flickers_detected := events.length,
          ssim_timeline_path := session_dir ++ "/ssim_timeline.png",
          comparison_images :=
            (List.range (min enriched.length 10)).filterMap fun i =>
              if env.comparisonRender i then
                some (session_dir ++ "/comparison_" ++ pad2 i ++ ".jpg")
              else none,
          analysis_time_seconds := pyRound env.analysisSeconds 2 }
        (report, 1)
      else
        ({ report with
            error := "Only " ++ toString frame_paths.length
              ++ " frames extracted, need at least 2",
            analysis_time_seconds := pyRound env.analysisSeconds 2 }, 1)

/-- A session whose recording fails after the retry budget: everything
downstream of the recorder is irrelevant and left trivial. -/
noncomputable def envC1fail : DetectionEnv :=
  { session_id := "s", exception := none,
    recording := .failure "Failed to pull recording after 3 attempts",
    statsBefore := ⟨"", 0, 0, 0⟩, statsAfter := ⟨"", 0, 0, 0⟩,
    deviceInfo := "d", logLines := [], framePaths := [],
    imgEnv := fun _ => none, rf := fun _ _ _ _ _ => 0, schedule := [],
    fileRead := fun _ => none, post := fun _ _ => NetResult.failure,
    comparisonRender := fun _ => false, analysisSeconds := 0 }

/-- A session that raises inside the `try` block. -/
noncomputable def envC1exc : DetectionEnv :=
  { envC1fail with exception := some "boom" }

/-- A session whose recording succeeds (too few frames downstream, which
still reaches the save block). -/
noncomputable def envC1ok : DetectionEnv :=
  { envC1fail with recording := .success "/tmp/s/recording.mp4" }

/-- C1: the claim says the report is persisted exactly once on success
and on every failure alike, in particular after a recording failure.
This is false: the `return report` at detection_pipeline.py line 109
exits before the save block at lines 195–199, so a session whose
recording fails writes the report zero times (the returned object does
carry the error text, but nothing is persisted). -/
theorem C1_persist_counterexample :
    (run_detection 10 15 false false none envC1fail).2 = 0 ∧
    (run_detection 10 15 false false none envC1fail).1.error
      = "Failed to pull recording after 3 attempts" :=
  ⟨rfl, rfl⟩

/-- C1 (amended): `run_detection` writes the report exactly once on
every path — an exception caught by the top-level handler (which stores
the error text), a successful recording (with or without enough frames)
— EXCEPT when the recording itself fails, where the early return skips
the save block entirely: the report comes back carrying the recorder's
error message but is written zero times. -/
theorem C1_report_persistence (duration fps : ℕ) (g c : Bool)
    (url : Option String) (env : DetectionEnv) :
    (∀ msg, env.exception = some msg →
      (run_detection duration fps g c url env).2 = 1 ∧
      (run_detection duration fps g c url env).1.error = msg) ∧
    (∀ msg, env.exception = none → env.recording = .failure msg →
      (run_detection duration fps g c url env).2 = 0 ∧
      (run_detection duration fps g c url env).1.error = msg) ∧
    (∀ vp, env.exception = none → env.recording = .success vp →
      (run_detection duration fps g c url env).2 = 1) := by
  refine ⟨?_, ?_, ?_⟩
  · intro msg h
    unfold run_detection
    rw [h]
    exact ⟨rfl, rfl⟩
  · intro msg h1 h2
    unfold run_detection
    rw [h1, h2]
    exact ⟨rfl, rfl⟩
  · intro vp h1 h2
    unfold run_detection
    rw [h1, h2]
    dsimp only
    split <;> rfl

/-- C1 amended theorem at concrete sessions: a failing recording is
never persisted, while an in-pipeline exception and a successful
recording both persist exactly once. -/
theorem C1_report_persistence_witness :
    (run_detection 10 15 false false none envC1fail).2 = 0 ∧
    (run_detection 10 15 false false none envC1fail).1.error
      = "Failed to pull recording after 3 attempts" ∧
    (run_detection 10 15 false false none envC1exc).2 = 1 ∧
    (run_detection 10 15 false false none envC1exc).1.error = "boom" ∧
    (run_detection 10 15 false false none envC1ok).2 = 1 := by
  refine ⟨?_, ?_, ?_, ?_, ?_⟩
  · exact ((C1_report_persistence 10 15 false false none envC1fail).2.1
      "Failed to pull recording after 3 attempts" rfl rfl).1
  · exact ((C1_report_persistence 10 15 false false none envC1fail).2.1
      "Failed to pull recording after 3 attempts" rfl rfl).2
  · exact ((C1_report_persistence 10 15 false false none envC1exc).1
      "boom" rfl).1
  · exact ((C1_report_persistence 10 15 false false none envC1exc).1
      "boom" rfl).2
  · exact (C1_report_persistence 10 15 false false none envC1ok).2.2
      "/tmp/s/recording.mp4" rfl rfl

end Flicker
